import Mathlib

/-!
Shallow embedding of the cross-store synchronization engine of
`backend/app/services/sync_service.py`.

Stores are modelled as association lists of buckets and objects; each
store call of the Python code is reproduced as a pure function on this
state.  Every call site can additionally be made to fail through an
injected store-level fault (`ClientError` or `EndpointConnectionError`,
the two exception classes the boto3 clients raise and the code catches),
so that the error-handling paths of the source are reachable in the
model.  Python exceptions are modelled by the inductive `Exn`;
unbound-local references are modelled by the `nameError` constructor.
-/

namespace CloudflowSync

/-- Python exception values relevant to the sync engine. -/
inductive Exn where
  | clientError (code : String) (msg : String)
  | endpointConnectionError (msg : String)
  | s3SyncError (msg : String)
  | s3SyncErrorCaused (msg : String) (cause : Exn)
  | nameError (var : String)
deriving DecidableEq

/-- A fault a store call can be made to raise: the two exception classes
the boto3 clients raise (`ClientError`, `EndpointConnectionError`). -/
inductive StoreFault where
  | clientError (code : String) (msg : String)
  | endpoint (msg : String)

def StoreFault.toExn : StoreFault → Exn
  | .clientError c m => .clientError c m
  | .endpoint m => .endpointConnectionError m

def isClientError : Exn → Bool
  | .clientError _ _ => true
  | _ => false

def isEndpointError : Exn → Bool
  | .endpointConnectionError _ => true
  | _ => false

def isSyncError : Exn → Bool
  | .s3SyncError _ => true
  | .s3SyncErrorCaused _ _ => true
  | _ => false

def exnCode : Exn → String
  | .clientError c _ => c
  | _ => ""

/-- `except (ClientError, EndpointConnectionError, S3SyncError)`. -/
def catchableOuter (e : Exn) : Bool :=
  isClientError e || isEndpointError e || isSyncError e

/-- `except (ClientError, EndpointConnectionError)`. -/
def catchableMeta (e : Exn) : Bool :=
  isClientError e || isEndpointError e

/-- `_extract_error_details` of the source. -/
def extractErrorDetails : Exn → String
  | .clientError code msg => code ++ ": " ++ msg
  | .s3SyncErrorCaused msg c =>
      msg ++ " (Cause: " ++ extractErrorDetails c ++ ")"
  | .s3SyncError msg => msg
  | .endpointConnectionError msg => "EndpointConnectionError: " ++ msg
  | .nameError v => "NameError: name " ++ v ++ " is not defined"

/-! ### Metadata maps (Python dicts of strings) -/

abbrev Meta := List (String × String)

def mget : Meta → String → Option String
  | [], _ => none
  | (a, b) :: t, k => if a = k then some b else mget t k

def eraseKeyM : Meta → String → Meta
  | [], _ => []
  | (a, b) :: t, k => if a = k then eraseKeyM t k else (a, b) :: eraseKeyM t k

/-- Dict update `{**m, k: v}` (observable through `mget`). -/
def mset (m : Meta) (k v : String) : Meta :=
  (k, v) :: eraseKeyM m k

/-- The merged map `{**src, "synced": s, "last_synced": ts,
"aws_bucket": b, "user_id": u}` built at every annotation site. -/
def mergeSyncMeta (src : Meta) (syncedVal ts bucketVal uid : String) : Meta :=
  mset (mset (mset (mset src "synced" syncedVal) "last_synced" ts) "aws_bucket" bucketVal) "user_id" uid

/-- The engine formats `datetime.now(timezone.utc).isoformat()`; the claims
do not depend on its value, so the clock is a constant. -/
def nowTs : String := "1970-01-01T00:00:00+00:00"

/-! ### Object stores -/

structure Obj where
  content : String
  metadata : Meta
deriving DecidableEq

/-- Raw ETag as stores return it: the content fingerprint wrapped in
double quotes.  The fingerprint function is content-identity in the
model (content-derived and injective, as the spec assumes). -/
def etagRaw (c : String) : String := "\"" ++ c ++ "\""

/-- Python `str.strip('"')`: remove all leading and trailing `"`. -/
def stripQuotes (s : String) : String :=
  String.mk (((s.data.dropWhile (fun c => c = '"')).reverse.dropWhile (fun c => c = '"')).reverse)

structure Store where
  buckets : List String
  objects : List ((String × String) × Obj)
deriving DecidableEq

def findObj : List ((String × String) × Obj) → String → String → Option Obj
  | [], _, _ => none
  | (p, o) :: t, b, k => if p.1 = b ∧ p.2 = k then some o else findObj t b k

def Store.find (s : Store) (b k : String) : Option Obj :=
  findObj s.objects b k

def eraseObj : List ((String × String) × Obj) → String → String → List ((String × String) × Obj)
  | [], _, _ => []
  | (p, o) :: t, b, k => if p.1 = b ∧ p.2 = k then eraseObj t b k else (p, o) :: eraseObj t b k

def Store.insertObj (s : Store) (b k : String) (o : Obj) : Store :=
  { s with objects := ((b, k), o) :: eraseObj s.objects b k }

def Store.hasBucket (s : Store) (b : String) : Bool :=
  s.buckets.contains b

/-- `head_bucket`. -/
def Store.headBucket (s : Store) (b : String) : Except Exn Unit :=
  if s.hasBucket b then .ok ()
  else .error (.clientError "404" "Not Found")

structure HeadResp where
  etagR : String
  metadata : Meta
deriving DecidableEq

/-- `head_object` (raw response, quoted ETag). -/
def Store.headObject (s : Store) (b k : String) : Except Exn HeadResp :=
  if s.hasBucket b then
    match s.find b k with
    | some o => .ok { etagR := etagRaw o.content, metadata := o.metadata }
    | none => .error (.clientError "404" "Not Found")
  else .error (.clientError "NoSuchBucket" "The specified bucket does not exist")

structure GetResp where
  content : String
  metadata : Meta
deriving DecidableEq

/-- `get_object`. -/
def Store.getObject (s : Store) (b k : String) : Except Exn GetResp :=
  if s.hasBucket b then
    match s.find b k with
    | some o => .ok { content := o.content, metadata := o.metadata }
    | none => .error (.clientError "NoSuchKey" "The specified key does not exist")
  else .error (.clientError "NoSuchBucket" "The specified bucket does not exist")

/-- `upload_fileobj` / put: replace the destination object's content and
metadata. -/
def Store.putObject (s : Store) (b k content : String) (md : Meta) : Except Exn Store :=
  if s.hasBucket b then .ok (s.insertObj b k { content := content, metadata := md })
  else .error (.clientError "NoSuchBucket" "The specified bucket does not exist")

/-- Same-object `copy_object` with `MetadataDirective="REPLACE"`: only the
metadata changes. -/
def Store.copyReplaceMeta (s : Store) (b k : String) (md : Meta) : Except Exn Store :=
  if s.hasBucket b then
    match s.find b k with
    | some o => .ok (s.insertObj b k { o with metadata := md })
    | none => .error (.clientError "NoSuchKey" "The specified key does not exist")
  else .error (.clientError "NoSuchBucket" "The specified bucket does not exist")

/-- `list_objects_v2` pagination, flattened: every key of the bucket under
the optional key-prefix filter, with raw ETags, in the store's listing
order. -/
def Store.listObjects (s : Store) (b : String) (pfx : Option String) : List (String × String) :=
  (s.objects.filter (fun p =>
      p.1.1 == b && (match pfx with
                     | some q => p.1.2.startsWith q
                     | none => true))).map (fun p => (p.1.2, etagRaw p.2.content))

structure World where
  minio : Store
  aws : Store
deriving DecidableEq

/-- Fault injection at one call site: `some f` makes the call raise. -/
def tryCall (fault : Option StoreFault) (x : Except Exn α) : Except Exn α :=
  match fault with
  | some f => .error f.toExn
  | none => x

/-! ### Helper functions of the source -/

structure HeadMeta where
  etag : String
  metadata : Meta
deriving DecidableEq

/-- `_get_object_metadata`: head with the ETag stripped of quotes;
`None` on a 404 `ClientError`; any other `ClientError` is wrapped into
`S3SyncError`; non-`ClientError` exceptions propagate unchanged. -/
def getObjectMetadata (fault : Option StoreFault) (s : Store) (b k : String) :
    Except Exn (Option HeadMeta) :=
  match tryCall fault (s.headObject b k) with
  | .ok r => .ok (some { etag := stripQuotes r.etagR, metadata := r.metadata })
  | .error e =>
    if isClientError e then
      if exnCode e = "404" then .ok none
      else .error (.s3SyncErrorCaused ("Could not access metadata for " ++ b ++ "/" ++ k) (e))
    else .error e

/-- `_ensure_bucket_exists`: head the bucket; on a 404/NoSuchBucket
`ClientError`, create it (`S3SyncError` if creation raises a
`ClientError`); any other `ClientError` becomes `S3SyncError`;
non-`ClientError` exceptions propagate unchanged. -/
def ensureBucketExists (fHead fCreate : Option StoreFault) (s : Store) (b : String) :
    Except Exn Store :=
  match tryCall fHead (s.headBucket b) with
  | .ok _ => .ok s
  | .error e =>
    if isClientError e then
      if exnCode e = "404" ∨ exnCode e = "NoSuchBucket" then
        match fCreate with
        | none => .ok { s with buckets := b :: s.buckets }
        | some cf =>
          if isClientError cf.toExn then
            .error (.s3SyncErrorCaused ("Could not create bucket " ++ b ++ ".") cf.toExn)
          else .error cf.toExn
      else .error (.s3SyncErrorCaused ("Could not access bucket " ++ b ++ ".") (e))
    else .error e

/-- `_check_source_bucket_exists`. -/
def checkSourceBucketExists (fault : Option StoreFault) (s : Store) (b : String) :
    Except Exn Unit :=
  match tryCall fault (s.headBucket b) with
  | .ok _ => .ok ()
  | .error e =>
    if isClientError e then
      if exnCode e = "404" ∨ exnCode e = "NoSuchBucket" then
        .error (.s3SyncError ("Source bucket " ++ b ++ " does not exist."))
      else .error (.s3SyncErrorCaused ("Could not access source bucket " ++ b ++ ".") (e))
    else .error e

/-- A metadata-replacing copy wrapped in
`try: ... except (ClientError, EndpointConnectionError): log` — every
exception such a copy can raise (its own `ClientError` or an injected
store fault) is caught, so the store is returned unchanged on failure. -/
def bestEffortCopy (fault : Option StoreFault) (s : Store) (b k : String) (md : Meta) : Store :=
  match fault with
  | some _ => s
  | none =>
    match s.copyReplaceMeta b k md with
    | .ok s2 => s2
    | .error _ => s

/-! ### sync_single_file -/

inductive SyncStatus where
  | synced | updated | skipped | failed
deriving DecidableEq

structure SyncResult where
  status : SyncStatus
  key : String
  error : Option String
deriving DecidableEq

/-- Fault slots, one per store call site of `sync_single_file` (in source
order). -/
structure FileFaults where
  headSource : Option StoreFault := none
  headDestBucket : Option StoreFault := none
  createDestBucket : Option StoreFault := none
  headDest : Option StoreFault := none
  skipAnnotate : Option StoreFault := none
  pendingAnnotate : Option StoreFault := none
  getSource : Option StoreFault := none
  upload : Option StoreFault := none
  finalAnnotate : Option StoreFault := none
  handlerHead : Option StoreFault := none
  handlerAnnotate : Option StoreFault := none

/-- The comparison of step 4: `if dest_meta and dest_meta.get("ETag") == source_etag`. -/
def destMatches (dest_meta : Option HeadMeta) (source_etag : String) : Bool :=
  match dest_meta with
  | some d => d.etag == source_etag
  | none => false

/-- The body of `sync_single_file`'s `try` block.  Errors carry the world
as mutated so far, since the failure handler observes those mutations. -/
def syncFileTry (w : World) (f : FileFaults) (lb ab key uid : String) :
    Except (Exn × World) (SyncResult × World) :=
  match getObjectMetadata f.headSource w.minio lb key with
  | .error e => .error (e, w)
  | .ok none =>
      .error (.s3SyncError ("Source file " ++ key ++ " not found in bucket " ++ lb ++ "."), w)
  | .ok (some sm) =>
    let source_etag := sm.etag
    match ensureBucketExists f.headDestBucket f.createDestBucket w.aws ab with
    | .error e => .error (e, w)
    | .ok aws1 =>
      let w1 : World := { w with aws := aws1 }
      match getObjectMetadata f.headDest aws1 ab key with
      | .error e => .error (e, w1)
      | .ok dest_meta =>
        if destMatches dest_meta source_etag then
          let md := mergeSyncMeta sm.metadata "true" nowTs ab uid
          let m2 := bestEffortCopy f.skipAnnotate w1.minio lb key md
          .ok ({ status := .skipped, key := key, error := none }, { w1 with minio := m2 })
        else
          let md := mergeSyncMeta sm.metadata "pending" nowTs ab uid
          let m1 := bestEffortCopy f.pendingAnnotate w1.minio lb key md
          let w2 : World := { w1 with minio := m1 }
          let status := if dest_meta.isSome then SyncStatus.updated else SyncStatus.synced
          match tryCall f.getSource (w2.minio.getObject lb key) with
          | .error e => .error (e, w2)
          | .ok resp =>
            let source_metadata := if resp.metadata.isEmpty then sm.metadata else resp.metadata
            let aws_md := mergeSyncMeta source_metadata "true" nowTs ab uid
            match tryCall f.upload (w2.aws.putObject ab key resp.content aws_md) with
            | .error e => .error (e, w2)
            | .ok aws2 =>
              let w3 : World := { w2 with aws := aws2 }
              let final_md := mergeSyncMeta source_metadata "true" nowTs ab uid
              let m3 := bestEffortCopy f.finalAnnotate w3.minio lb key final_md
              .ok ({ status := status, key := key, error := none }, { w3 with minio := m3 })

/-- The failure handler of `sync_single_file`: best-effort `synced=false`
annotation, then the failed result.  Its inner `except` names only
`(ClientError, EndpointConnectionError)`, so an `S3SyncError` raised by
`_get_object_metadata` escapes. -/
def syncFileHandler (w : World) (f : FileFaults) (lb ab key uid : String) (e : Exn) :
    Except Exn (SyncResult × World) :=
  let res : SyncResult := { status := .failed, key := key, error := some (extractErrorDetails e) }
  match getObjectMetadata f.handlerHead w.minio lb key with
  | .ok (some sm) =>
    let md := mergeSyncMeta sm.metadata "false" nowTs ab uid
    match tryCall f.handlerAnnotate (w.minio.copyReplaceMeta lb key md) with
    | .ok m2 => .ok (res, { w with minio := m2 })
    | .error ce => if catchableMeta ce then .ok (res, w) else .error ce
  | .ok none => .ok (res, w)
  | .error he => if catchableMeta he then .ok (res, w) else .error he

/-- `sync_single_file(local_bucket, aws_bucket, key, user_id)`. -/
def sync_single_file (w : World) (f : FileFaults) (lb ab key uid : String) :
    Except Exn (SyncResult × World) :=
  match syncFileTry w f lb ab key uid with
  | .ok rw => .ok rw
  | .error (e, w1) =>
    if catchableOuter e then syncFileHandler w1 f lb ab key uid e
    else .error e

/-! ### sync_single_bucket -/

structure BucketSummary where
  bucket : String
  files_synced : Nat
  files_updated : Nat
  files_skipped : Nat
  failed_files : List (String × String)
  error : Option String
deriving DecidableEq

/-- Fault slots for the per-key body of `sync_single_bucket`'s loop. -/
structure KeyFaults where
  headSource : Option StoreFault := none
  pendingAnnotate : Option StoreFault := none
  headDest : Option StoreFault := none
  skipAnnotate : Option StoreFault := none
  getSource : Option StoreFault := none
  upload : Option StoreFault := none
  finalAnnotate : Option StoreFault := none
  handlerHead : Option StoreFault := none
  handlerAnnotate : Option StoreFault := none

structure BucketFaults where
  checkSourceBucket : Option StoreFault := none
  headDestBucket : Option StoreFault := none
  createDestBucket : Option StoreFault := none
  listObjects : Option StoreFault := none
  keyFaults : String → KeyFaults := fun _ => {}

/-- The locals `user_id` and `minio_metadata` (with `copy_source`) are
bound only inside `if source_meta:`; when the source head returned
`None` they stay unbound and any later reference raises `NameError`. -/
structure KeyBindings where
  user_id : String
  minio_metadata : Meta

/-- The upload tail of the per-key body: `get_object`, the merged
destination metadata (first unbound-local reference: `user_id`),
`upload_fileobj`, and the best-effort final metadata copy. -/
def syncBucketUpload (w : World) (f : KeyFaults) (bucket aws_bucket key : String)
    (bindings : Option KeyBindings) (s : BucketSummary) :
    Except (Exn × BucketSummary × World) (BucketSummary × World) :=
  match tryCall f.getSource (w.minio.getObject bucket key) with
  | .error e => .error (e, s, w)
  | .ok resp =>
    let source_metadata := resp.metadata
    match bindings with
    | none => .error (.nameError "user_id", s, w)
    | some bd =>
      let aws_md := mergeSyncMeta source_metadata "true" nowTs aws_bucket bd.user_id
      match tryCall f.upload (w.aws.putObject aws_bucket key resp.content aws_md) with
      | .error e => .error (e, s, w)
      | .ok aws2 =>
        let w1 : World := { w with aws := aws2 }
        let final_md := mergeSyncMeta source_metadata "true" nowTs aws_bucket bd.user_id
        let m2 := bestEffortCopy f.finalAnnotate w1.minio bucket key final_md
        .ok (s, { w1 with minio := m2 })

/-- The per-key `try` body of `sync_single_bucket`'s loop.  Note that the
`synced=pending` copy is *not* wrapped in its own `try`, and that the
success counters are incremented before the transfer is attempted. -/
def syncBucketKeyTry (w : World) (f : KeyFaults) (bucket aws_bucket key source_etag : String)
    (s : BucketSummary) : Except (Exn × BucketSummary × World) (BucketSummary × World) :=
  match getObjectMetadata f.headSource w.minio bucket key with
  | .error e => .error (e, s, w)
  | .ok smOpt =>
    let step :=
      match smOpt with
      | some sm =>
        let uid := (mget sm.metadata "user_id").getD "unknown"
        let md := mergeSyncMeta sm.metadata "pending" nowTs aws_bucket uid
        match tryCall f.pendingAnnotate (w.minio.copyReplaceMeta bucket key md) with
        | .ok m1 => Except.ok (some ({ user_id := uid, minio_metadata := md } : KeyBindings),
                              { w with minio := m1 })
        | .error e => Except.error (e, s, w)
      | none => Except.ok ((none : Option KeyBindings), w)
    match step with
    | .error esw => .error esw
    | .ok (bindings, w1) =>
      match getObjectMetadata f.headDest w1.aws aws_bucket key with
      | .error e => .error (e, s, w1)
      | .ok destOpt =>
        match destOpt with
        | none =>
          let s1 := { s with files_synced := s.files_synced + 1 }
          syncBucketUpload w1 f bucket aws_bucket key bindings s1
        | some d =>
          if d.etag == source_etag then
            let s1 := { s with files_skipped := s.files_skipped + 1 }
            match bindings with
            | none => .error (.nameError "minio_metadata", s1, w1)
            | some bd =>
              let md := mset bd.minio_metadata "synced" "true"
              let m2 := bestEffortCopy f.skipAnnotate w1.minio bucket key md
              .ok (s1, { w1 with minio := m2 })
          else
            let s1 := { s with files_updated := s.files_updated + 1 }
            syncBucketUpload w1 f bucket aws_bucket key bindings s1

/-- The per-key failure handler of the loop: best-effort `synced=false`
annotation.  Its `except` names only `(ClientError,
EndpointConnectionError)`, so an `S3SyncError` raised by
`_get_object_metadata` escapes the whole bucket sync. -/
def syncBucketKeyHandler (w : World) (f : KeyFaults) (bucket aws_bucket key : String) :
    Except Exn World :=
  match getObjectMetadata f.handlerHead w.minio bucket key with
  | .ok (some sm) =>
    let uid := (mget sm.metadata "user_id").getD "unknown"
    let md := mergeSyncMeta sm.metadata "false" nowTs aws_bucket uid
    match tryCall f.handlerAnnotate (w.minio.copyReplaceMeta bucket key md) with
    | .ok m2 => .ok { w with minio := m2 }
    | .error ce => if catchableMeta ce then .ok w else .error ce
  | .ok none => .ok w
  | .error he => if catchableMeta he then .ok w else .error he

/-- One key of the loop, with its
`except (ClientError, EndpointConnectionError, S3SyncError)` handler;
the `failed_files` entry is appended after the handler ran. -/
def syncBucketKey (w : World) (f : KeyFaults) (bucket aws_bucket key source_etag : String)
    (s : BucketSummary) : Except (Exn × BucketSummary × World) (BucketSummary × World) :=
  match syncBucketKeyTry w f bucket aws_bucket key source_etag s with
  | .ok sw => .ok sw
  | .error (e, s1, w1) =>
    if catchableOuter e then
      match syncBucketKeyHandler w1 f bucket aws_bucket key with
      | .ok w2 =>
        .ok ({ s1 with failed_files := s1.failed_files ++ [(key, extractErrorDetails e)] }, w2)
      | .error he => .error (he, s1, w1)
    else .error (e, s1, w1)

/-- Projection of a per-key step to its summary outcome (the summary on
success, the exception and the summary on error), discarding store
state. -/
def keyOutcome (r : Except (Exn × BucketSummary × World) (BucketSummary × World)) :
    Except (Exn × BucketSummary) BucketSummary :=
  match r with
  | .ok p => .ok p.1
  | .error t => .error (t.1, t.2.1)

/-- Two per-key step results that agree up to the store state: equal
error payloads, or equal summaries with possibly different worlds. -/
def sameOutcome (x y : Except (Exn × BucketSummary × World) (BucketSummary × World)) : Prop :=
  (∃ t, x = .error t ∧ y = .error t) ∨
  (∃ s2 w1 w2, x = .ok (s2, w1) ∧ y = .ok (s2, w2))

def syncBucketLoop (kf : String → KeyFaults) (bucket aws_bucket : String) :
    List (String × String) → World → BucketSummary →
    Except (Exn × BucketSummary × World) (BucketSummary × World)
  | [], w, s => .ok (s, w)
  | (key, rawEtag) :: rest, w, s =>
    match syncBucketKey w (kf key) bucket aws_bucket key (stripQuotes rawEtag) s with
    | .ok (s1, w1) => syncBucketLoop kf bucket aws_bucket rest w1 s1
    | .error esw => .error esw

/-- `sync_single_bucket(bucket_name, aws_bucket_name=None, prefix=None)`. -/
def sync_single_bucket (w : World) (bf : BucketFaults) (bucket_name : String)
    (aws_bucket_name : Option String) (pfx : Option String) :
    Except Exn (BucketSummary × World) :=
  let aws_bucket := aws_bucket_name.getD bucket_name
  let s0 : BucketSummary :=
    { bucket := bucket_name, files_synced := 0, files_updated := 0, files_skipped := 0,
      failed_files := [], error := none }
  match checkSourceBucketExists bf.checkSourceBucket w.minio bucket_name with
  | .error e =>
    if isSyncError e then .ok ({ s0 with error := some (extractErrorDetails e) }, w)
    else .error e
  | .ok _ =>
    match ensureBucketExists bf.headDestBucket bf.createDestBucket w.aws aws_bucket with
    | .error e =>
      if isSyncError e then .ok ({ s0 with error := some (extractErrorDetails e) }, w)
      else .error e
    | .ok aws1 =>
      let w1 : World := { w with aws := aws1 }
      match tryCall bf.listObjects (.ok (w1.minio.listObjects bucket_name pfx)) with
      | .error e =>
        if isClientError e then
          .ok ({ s0 with error := some ("Failed to list objects in source bucket: " ++ extractErrorDetails e) }, w1)
        else .error e
      | .ok entries =>
        match syncBucketLoop bf.keyFaults bucket_name aws_bucket entries w1 s0 with
        | .ok (s1, w2) => .ok (s1, w2)
        | .error (e, s1, w2) =>
          if isClientError e then
            .ok ({ s1 with error := some ("Failed to list objects in source bucket: " ++ extractErrorDetails e) }, w2)
          else .error e

/-! ### sync_all_buckets -/

structure FleetSummary where
  total_buckets_scanned : Nat
  total_files_synced : Nat
  total_files_updated : Nat
  total_files_skipped : Nat
  failed_buckets : List (String × String)
  bucket_summaries : List BucketSummary
deriving DecidableEq

structure FleetFaults where
  listBuckets : Option StoreFault := none
  bucketFaults : String → BucketFaults := fun _ => {}

/-- The `failed_buckets` entry the fleet loop records for one bucket
summary, if any. -/
def fleetFailureEntry (b : String) (bs : BucketSummary) : List (String × String) :=
  match bs.error with
  | some err => [(b, err)]
  | none =>
    if bs.failed_files.isEmpty then []
    else [(b, toString bs.failed_files.length ++ " file(s) failed to sync")]

/-- The destination bucket name the fleet loop computes:
`f"{bucket_name}{aws_bucket_prefix}"` — the configured affix is appended
to the bucket name. -/
def fleetDestName (affix : Option String) (b : String) : String :=
  match affix with
  | some p => b ++ p
  | none => b

def syncFleetLoop (ff : FleetFaults) (affix : Option String) :
    List String → World → FleetSummary → Except Exn (FleetSummary × World)
  | [], w, o => .ok (o, w)
  | b :: rest, w, o =>
    match sync_single_bucket w (ff.bucketFaults b) b (some (fleetDestName affix b)) none with
    | .error e => .error e
    | .ok (bs, w1) =>
      let o1 : FleetSummary :=
        { o with
          total_files_synced := o.total_files_synced + bs.files_synced,
          total_files_updated := o.total_files_updated + bs.files_updated,
          total_files_skipped := o.total_files_skipped + bs.files_skipped,
          failed_buckets := o.failed_buckets ++ fleetFailureEntry b bs,
          bucket_summaries := o.bucket_summaries ++ [bs] }
      syncFleetLoop ff affix rest w1 o1

/-- `sync_all_buckets(aws_bucket_prefix=None)` — despite the parameter
name, the source appends it to the bucket name
(`f-string bucket_name + aws_bucket_prefix`). -/
def sync_all_buckets (w : World) (ff : FleetFaults) (affix : Option String) :
    Except Exn (FleetSummary × World) :=
  match tryCall ff.listBuckets (.ok w.minio.buckets) with
  | .error e =>
    if isClientError e then
      .error (.s3SyncErrorCaused "Could not list source buckets. Aborting sync." e)
    else .error e
  | .ok source_buckets =>
    let o0 : FleetSummary :=
      { total_buckets_scanned := source_buckets.length,
        total_files_synced := 0, total_files_updated := 0, total_files_skipped := 0,
        failed_buckets := [], bucket_summaries := [] }
    syncFleetLoop ff affix source_buckets w o0

/-! ### Concrete worlds used by individual claims -/

def c1World : World :=
  { minio := { buckets := ["src"], objects := [(("src", "k"), { content := "X", metadata := [] })] },
    aws := { buckets := ["dst"], objects := [] } }

def c1Faults : FileFaults :=
  { upload := some (.clientError "500" "oops"),
    handlerHead := some (.clientError "403" "forbidden") }

def c2World : World :=
  { minio := { buckets := ["b"],
               objects := [(("b", "k1"), { content := "A", metadata := [("user_id", "u")] }),
                           (("b", "k2"), { content := "B", metadata := [] })] },
    aws := { buckets := ["b"], objects := [] } }

def c2Faults : BucketFaults :=
  { keyFaults := fun k =>
      if k = "k2" then { upload := some (.clientError "500" "fail") } else {} }

def c3World : World :=
  { minio := { buckets := ["b"], objects := [(("b", "k"), { content := "X", metadata := [] })] },
    aws := { buckets := ["b"], objects := [(("b", "k"), { content := "X", metadata := [] })] } }

def c3Faults : BucketFaults :=
  { keyFaults := fun k =>
      if k = "k" then { pendingAnnotate := some (.clientError "503" "unavailable") } else {} }

def c4World : World :=
  { minio := { buckets := ["docs"],
               objects := [(("docs", "a.txt"), { content := "A", metadata := [("user_id", "u1")] }),
                           (("docs", "b.txt"), { content := "B", metadata := [] }),
                           (("docs", "c.txt"), { content := "C1", metadata := [] }),
                           (("docs", "d.txt"), { content := "D", metadata := [] })] },
    aws := { buckets := ["docs"],
             objects := [(("docs", "b.txt"), { content := "B", metadata := [] }),
                         (("docs", "c.txt"), { content := "C2", metadata := [] })] } }

def c4Faults : BucketFaults :=
  { keyFaults := fun k =>
      if k = "d.txt" then { headSource := some (.endpoint "conn reset") } else {} }

def c6World : World :=
  { minio := { buckets := ["b"],
               objects := [(("b", "k"),
                 { content := "X", metadata := [("user_id", "alice"), ("bucket", "docs")] })] },
    aws := { buckets := ["b"], objects := [] } }

def c7World : World :=
  { minio := { buckets := ["b"], objects := [(("b", "k"), { content := "X", metadata := [] })] },
    aws := { buckets := [], objects := [] } }

def c8World : World :=
  { minio := { buckets := ["b1", "b2"],
               objects := [(("b1", "k"), { content := "X", metadata := [] }),
                           (("b2", "j"), { content := "Y", metadata := [] })] },
    aws := { buckets := ["b1", "b2"],
             objects := [(("b1", "k"), { content := "X", metadata := [] })] } }

def c8Faults : FleetFaults :=
  { bucketFaults := fun b =>
      if b = "b1" then
        { keyFaults := fun k =>
            if k = "k" then { headSource := some (.clientError "404" "gone") } else {} }
      else {} }

def c10World : World :=
  { minio := { buckets := ["b"], objects := [(("b", "k"), { content := "X", metadata := [] })] },
    aws := { buckets := ["b"], objects := [(("b", "k"), { content := "X", metadata := [] })] } }

def c10Faults : BucketFaults :=
  { keyFaults := fun k =>
      if k = "k" then { headSource := some (.clientError "404" "gone") } else {} }

def c8OkWorld : World :=
  { minio := { buckets := ["b"], objects := [(("b", "k"), { content := "X", metadata := [] })] },
    aws := { buckets := ["b"], objects := [] } }

def c8OkSummary : FleetSummary :=
  { total_buckets_scanned := 1, total_files_synced := 1, total_files_updated := 0,
    total_files_skipped := 0, failed_buckets := [],
    bucket_summaries := [{ bucket := "b", files_synced := 1, files_updated := 0,
                           files_skipped := 0, failed_files := [], error := none }] }

def c8OkFinal : World :=
  { minio := { buckets := ["b"],
               objects := [(("b", "k"),
                 { content := "X",
                   metadata := [("user_id", "unknown"), ("aws_bucket", "b"),
                                ("last_synced", "1970-01-01T00:00:00+00:00"),
                                ("synced", "true")] })] },
    aws := { buckets := ["b"],
             objects := [(("b", "k"),
               { content := "X",
                 metadata := [("user_id", "unknown"), ("aws_bucket", "b"),
                              ("last_synced", "1970-01-01T00:00:00+00:00"),
                              ("synced", "true")] })] } }

def c6Final : World :=
  { minio := { buckets := ["b"],
               objects := [(("b", "k"),
                 { content := "X",
                   metadata := [("user_id", "bob"), ("aws_bucket", "b"),
                                ("last_synced", "1970-01-01T00:00:00+00:00"),
                                ("synced", "true"), ("bucket", "docs")] })] },
    aws := { buckets := ["b"],
             objects := [(("b", "k"),
               { content := "X",
                 metadata := [("user_id", "bob"), ("aws_bucket", "b"),
                              ("last_synced", "1970-01-01T00:00:00+00:00"),
                              ("synced", "true"), ("bucket", "docs")] })] } }

def c5World : World :=
  { minio := { buckets := ["b"],
               objects := [(("b", "k"), { content := "X", metadata := [("bucket", "b")] })] },
    aws := { buckets := [], objects := [] } }

def c5Mid : World :=
  { minio := { buckets := ["b"],
               objects := [(("b", "k"),
                 { content := "X",
                   metadata := [("user_id", "u"), ("aws_bucket", "d"),
                                ("last_synced", "1970-01-01T00:00:00+00:00"),
                                ("synced", "true"), ("bucket", "b")] })] },
    aws := { buckets := ["d"],
             objects := [(("d", "k"),
               { content := "X",
                 metadata := [("user_id", "u"), ("aws_bucket", "d"),
                              ("last_synced", "1970-01-01T00:00:00+00:00"),
                              ("synced", "true"), ("bucket", "b")] })] } }

/-! ### Basic lemmas about the store model -/

theorem mget_eraseKeyM (m : Meta) (k k2 : String) :
    mget (eraseKeyM m k) k2 = if k = k2 then none else mget m k2 := by
  induction m with
  | nil => simp only [eraseKeyM, mget]; split <;> rfl
  | cons a t ih =>
    obtain ⟨x, y⟩ := a
    simp only [eraseKeyM]
    by_cases hx : x = k
    · subst hx
      rw [if_pos rfl, ih]
      by_cases h2 : x = k2
      · rw [if_pos h2, if_pos h2]
      · rw [if_neg h2, if_neg h2]
        simp only [mget]
        rw [if_neg h2]
    · rw [if_neg hx]
      simp only [mget]
      by_cases h2 : x = k2
      · subst h2
        rw [if_pos rfl, if_neg (fun h => hx h.symm), if_pos rfl]
      · rw [if_neg h2, ih]
        by_cases h3 : k = k2
        · rw [if_pos h3, if_pos h3]
        · rw [if_neg h3, if_neg h3, if_neg h2]

theorem mget_mset (m : Meta) (k v k2 : String) :
    mget (mset m k v) k2 = if k = k2 then some v else mget m k2 := by
  simp only [mset, mget]
  by_cases h : k = k2
  · rw [if_pos h, if_pos h]
  · rw [if_neg h, if_neg h, mget_eraseKeyM, if_neg h]

/-- A key distinct from the four sync fields reads through
`mergeSyncMeta` unchanged. -/
theorem mget_mergeSyncMeta_other (m : Meta) (sv ts bv uid k2 : String)
    (h1 : "synced" ≠ k2) (h2 : "last_synced" ≠ k2)
    (h3 : "aws_bucket" ≠ k2) (h4 : "user_id" ≠ k2) :
    mget (mergeSyncMeta m sv ts bv uid) k2 = mget m k2 := by
  simp only [mergeSyncMeta, mget_mset, if_neg h1, if_neg h2, if_neg h3, if_neg h4]

theorem mergeSyncMeta_not_empty (m : Meta) (sv ts bv uid : String) :
    (mergeSyncMeta m sv ts bv uid).isEmpty = false := rfl

theorem findObj_eraseObj (l : List ((String × String) × Obj)) (b k b2 k2 : String) :
    findObj (eraseObj l b k) b2 k2 =
      if b = b2 ∧ k = k2 then none else findObj l b2 k2 := by
  induction l with
  | nil => simp only [eraseObj, findObj]; split <;> rfl
  | cons a t ih =>
    obtain ⟨⟨x, y⟩, o⟩ := a
    simp only [eraseObj]
    by_cases hx : x = b ∧ y = k
    · obtain ⟨hx1, hx2⟩ := hx
      subst hx1; subst hx2
      rw [if_pos ⟨rfl, rfl⟩, ih]
      by_cases h2 : x = b2 ∧ y = k2
      · rw [if_pos h2, if_pos h2]
      · rw [if_neg h2, if_neg h2]
        simp only [findObj]
        rw [if_neg h2]
    · rw [if_neg hx]
      simp only [findObj]
      by_cases h2 : x = b2 ∧ y = k2
      · rw [if_pos h2,
          if_neg (fun hh => hx ⟨h2.1.trans hh.1.symm, h2.2.trans hh.2.symm⟩),
          if_pos h2]
      · rw [if_neg h2, ih]
        by_cases h3 : b = b2 ∧ k = k2
        · rw [if_pos h3, if_pos h3]
        · rw [if_neg h3, if_neg h3, if_neg h2]

theorem find_insertObj (s : Store) (b k : String) (o : Obj) (b2 k2 : String) :
    (s.insertObj b k o).find b2 k2 =
      if b = b2 ∧ k = k2 then some o else s.find b2 k2 := by
  simp only [Store.insertObj, Store.find, findObj]
  by_cases h : b = b2 ∧ k = k2
  · rw [if_pos h, if_pos h]
  · rw [if_neg h, if_neg h, findObj_eraseObj, if_neg h]

theorem insertObj_buckets (s : Store) (b k : String) (o : Obj) :
    (s.insertObj b k o).buckets = s.buckets := rfl

theorem copyReplaceMeta_ok (s : Store) (b k : String) (md : Meta) (o : Obj)
    (hb : s.hasBucket b = true) (hf : s.find b k = some o) :
    s.copyReplaceMeta b k md = .ok (s.insertObj b k { o with metadata := md }) := by
  simp [Store.copyReplaceMeta, hb, hf]

theorem bestEffortCopy_buckets (f : Option StoreFault) (s : Store) (b k : String) (md : Meta) :
    (bestEffortCopy f s b k md).buckets = s.buckets := by
  cases f with
  | some _ => rfl
  | none =>
    simp only [bestEffortCopy, Store.copyReplaceMeta]
    by_cases hb : s.hasBucket b
    · simp only [if_pos hb]
      cases hf : s.find b k <;> simp [insertObj_buckets]
    · simp [hb]

theorem bestEffortCopy_hasBucket (f : Option StoreFault) (s : Store) (b k b2 : String) (md : Meta) :
    (bestEffortCopy f s b k md).hasBucket b2 = s.hasBucket b2 := by
  simp [Store.hasBucket, bestEffortCopy_buckets]

theorem bestEffortCopy_content (f : Option StoreFault) (s : Store) (b k b2 k2 : String) (md : Meta) :
    ((bestEffortCopy f s b k md).find b2 k2).map Obj.content = (s.find b2 k2).map Obj.content := by
  cases f with
  | some _ => rfl
  | none =>
    simp only [bestEffortCopy, Store.copyReplaceMeta]
    by_cases hb : s.hasBucket b
    · simp only [if_pos hb]
      cases hf : s.find b k with
      | some o =>
        simp only [find_insertObj]
        by_cases h2 : b = b2 ∧ k = k2
        · rw [if_pos h2, ← h2.1, ← h2.2, hf]; simp
        · rw [if_neg h2]
      | none => rfl
    · simp [hb]

theorem ensureBucketExists_nofault (s : Store) (b : String) :
    ensureBucketExists none none s b =
      .ok (if s.hasBucket b then s else { s with buckets := b :: s.buckets }) := by
  simp only [ensureBucketExists, tryCall, Store.headBucket]
  by_cases hb : s.hasBucket b
  · simp [hb]
  · simp [hb, isClientError, exnCode]

theorem ensureBucketExists_nofault_spec (s : Store) (b : String) :
    ∃ s2, ensureBucketExists none none s b = .ok s2 ∧
      s2.objects = s.objects ∧ s2.hasBucket b = true ∧
      ∀ b2, s.hasBucket b2 = true → s2.hasBucket b2 = true := by
  refine ⟨_, ensureBucketExists_nofault s b, ?_, ?_, ?_⟩
  · by_cases hb : s.hasBucket b <;> simp [hb]
  · by_cases hb : s.hasBucket b
    · rw [if_pos hb]; exact hb
    · rw [if_neg hb]
      simp [Store.hasBucket, List.contains_cons]
  · intro b2 h2
    by_cases hb : s.hasBucket b
    · rw [if_pos hb]; exact h2
    · rw [if_neg hb]
      simp only [Store.hasBucket] at h2 ⊢
      simp [List.contains_cons, h2]
      exact Or.inr (List.mem_of_elem_eq_true h2)

theorem getObjectMetadata_nofault_some (s : Store) (b k : String) (o : Obj)
    (hb : s.hasBucket b = true) (hf : s.find b k = some o) :
    getObjectMetadata none s b k =
      .ok (some { etag := stripQuotes (etagRaw o.content), metadata := o.metadata }) := by
  simp [getObjectMetadata, tryCall, Store.headObject, hb, hf]

theorem getObjectMetadata_nofault_none (s : Store) (b k : String)
    (hb : s.hasBucket b = true) (hf : s.find b k = none) :
    getObjectMetadata none s b k = .ok none := by
  simp [getObjectMetadata, tryCall, Store.headObject, hb, hf, isClientError, exnCode]

theorem getObjectMetadata_nofault_some_inv (s : Store) (b k : String) (hm : HeadMeta)
    (h : getObjectMetadata none s b k = .ok (some hm)) :
    s.hasBucket b = true ∧ ∃ o, s.find b k = some o ∧
      hm = { etag := stripQuotes (etagRaw o.content), metadata := o.metadata } := by
  by_cases hb : s.hasBucket b
  · refine ⟨hb, ?_⟩
    cases hf : s.find b k with
    | some o =>
      rw [getObjectMetadata_nofault_some s b k o hb hf] at h
      exact ⟨o, rfl, by injection h with h2; injection h2 with h3; exact h3.symm⟩
    | none =>
      rw [getObjectMetadata_nofault_none s b k hb hf] at h
      simp at h
  · exfalso
    simp only [Bool.not_eq_true] at hb
    simp [getObjectMetadata, tryCall, Store.headObject, hb, isClientError, exnCode] at h

theorem catchableOuter_storeFault (sf : StoreFault) : catchableOuter sf.toExn = true := by
  cases sf <;> rfl

theorem catchableMeta_storeFault (sf : StoreFault) : catchableMeta sf.toExn = true := by
  cases sf <;> rfl

theorem insertObj_hasBucket (s : Store) (b k : String) (o : Obj) (b2 : String) :
    (s.insertObj b k o).hasBucket b2 = s.hasBucket b2 := rfl

theorem bestEffortCopy_nofault_ok (s : Store) (b k : String) (md : Meta) (o : Obj)
    (hb : s.hasBucket b = true) (hf : s.find b k = some o) :
    bestEffortCopy none s b k md = s.insertObj b k { o with metadata := md } := by
  simp [bestEffortCopy, copyReplaceMeta_ok s b k md o hb hf]

theorem putObject_ok (s : Store) (b k c : String) (md : Meta) (hb : s.hasBucket b = true) :
    s.putObject b k c md = .ok (s.insertObj b k { content := c, metadata := md }) := by
  simp [Store.putObject, hb]

theorem getObject_ok (s : Store) (b k : String) (o : Obj)
    (hb : s.hasBucket b = true) (hf : s.find b k = some o) :
    s.getObject b k = .ok { content := o.content, metadata := o.metadata } := by
  simp [Store.getObject, hb, hf]

theorem getObjectMetadata_nofault_error_inv (s : Store) (b k : String) (e : Exn)
    (h : getObjectMetadata none s b k = .error e) :
    s.hasBucket b = false ∧
      e = .s3SyncErrorCaused ("Could not access metadata for " ++ b ++ "/" ++ k)
            (.clientError "NoSuchBucket" "The specified bucket does not exist") := by
  by_cases hb : s.hasBucket b
  · exfalso
    cases hf : s.find b k with
    | some o => rw [getObjectMetadata_nofault_some s b k o hb hf] at h; simp at h
    | none => rw [getObjectMetadata_nofault_none s b k hb hf] at h; simp at h
  · have hb2 : s.hasBucket b = false := by simpa using hb
    refine ⟨hb2, ?_⟩
    simp [getObjectMetadata, tryCall, Store.headObject, hb2, isClientError, exnCode] at h
    exact h.symm

theorem bestEffortCopy_getObject (f : Option StoreFault) (s : Store) (b k : String) (md : Meta)
    (o : Obj) (hb : s.hasBucket b = true) (hf : s.find b k = some o) :
    ∃ md2, (bestEffortCopy f s b k md).getObject b k
        = .ok { content := o.content, metadata := md2 }
      ∧ (bestEffortCopy f s b k md).find b k = some { content := o.content, metadata := md2 }
      ∧ (bestEffortCopy f s b k md).hasBucket b = true := by
  have hcont := bestEffortCopy_content f s b k b k md
  rw [hf] at hcont
  cases hg : (bestEffortCopy f s b k md).find b k with
  | none => rw [hg] at hcont; simp at hcont
  | some o2 =>
    rw [hg] at hcont
    simp only [Option.map] at hcont
    have hco : o2.content = o.content := by injection hcont
    have hbk : (bestEffortCopy f s b k md).hasBucket b = true := by
      rw [bestEffortCopy_hasBucket]; exact hb
    refine ⟨o2.metadata, ?_, ?_, hbk⟩
    · rw [getObject_ok _ b k o2 hbk hg, hco]
    · rw [← hco]

theorem ensureBucketExists_nofault_ok_inv (s s2 : Store) (b : String)
    (h : ensureBucketExists none none s b = .ok s2) :
    s2.hasBucket b = true ∧ s2.objects = s.objects ∧
      ∀ b2, s.hasBucket b2 = true → s2.hasBucket b2 = true := by
  obtain ⟨s3, h3, ho, hb, hmono⟩ := ensureBucketExists_nofault_spec s b
  rw [h3] at h
  injection h with h
  subst h
  exact ⟨hb, ho, hmono⟩

/-! ### Claim theorems on concrete worlds -/

/-- C1: refuted as stated — the code is at fault.  When the upload fails
with a `ClientError` and the best-effort `synced=false` annotation inside
the failure handler heads the source with a non-404 `ClientError`,
`_get_object_metadata` wraps that error into `S3SyncError`, which the
handler's inner `except (ClientError, EndpointConnectionError)` does not
catch: the `S3SyncError` escapes `sync_single_file` instead of the
documented `{status: "failed", key, error}` result, and the original
error is masked. -/
theorem sync_single_file_handler_head_escapes :
    sync_single_file c1World c1Faults "src" "dst" "k" "u"
      = .error (.s3SyncErrorCaused "Could not access metadata for src/k"
          (.clientError "403" "forbidden")) := rfl

/-- C2: refuted as stated — the code is at fault.  In a 2-key bucket sync
where only `k2`'s streaming upload fails, the summary counts `k2` in
`files_synced` as well (the counter is incremented before the transfer
is attempted and never rolled back), so
`files_synced + files_updated + files_skipped = 2 = N`, not `N-1`,
while `failed_files` also lists `k2`. -/
theorem sync_single_bucket_double_counts_failed_transfer :
    (sync_single_bucket c2World c2Faults "b" none none).map (fun p => p.1)
      = .ok { bucket := "b", files_synced := 2, files_updated := 0, files_skipped := 0,
              failed_files := [("k2", "500: fail")], error := none } := rfl

/-- C3 counterexample: in the per-key loop of `sync_single_bucket` the
`synced=pending` metadata write is not individually guarded, so its
failure is caught by the per-key handler and the key — which would have
been `skipped` (identical fingerprints) — is reported in `failed_files`
instead, contradicting the claim that a best-effort annotation failure
never changes the attempt's reported outcome. -/
theorem pending_annotation_failure_changes_outcome :
    (sync_single_bucket c3World c3Faults "b" none none).map (fun p => p.1)
      = .ok { bucket := "b", files_synced := 0, files_updated := 0, files_skipped := 0,
              failed_files := [("k", "503: unavailable")], error := none } := rfl

/-- C4: for the bucket `docs` with `a.txt` new, `b.txt` identical at the
destination, `c.txt` different at the destination and `d.txt` whose
source head raises a transient error, `sync_single_bucket` returns
`files_synced=1`, `files_skipped=1`, `files_updated=1` and exactly one
`failed_files` entry, for `d.txt`. -/
theorem sync_single_bucket_four_key_scenario :
    (sync_single_bucket c4World c4Faults "docs" none none).map (fun p => p.1)
      = .ok { bucket := "docs", files_synced := 1, files_updated := 1, files_skipped := 1,
              failed_files := [("d.txt", "EndpointConnectionError: conn reset")],
              error := none } := rfl

/-- C6 counterexample: the claim includes `user_id` among the preserved
keys, but `sync_single_file` overwrites it with the caller-supplied
`user_id` argument in every metadata-replacing write: syncing an object
whose metadata carries `user_id=alice` with the argument `bob` leaves
`user_id=bob` on the source (while the unrelated key `bucket` is
preserved). -/
theorem user_id_metadata_overwritten :
    ((sync_single_file c6World {} "b" "b" "k" "bob").map
        (fun p => (p.2.minio.find "b" "k").map (fun o => mget o.metadata "user_id")))
      = .ok (some (some "bob"))
    ∧ (c6World.minio.find "b" "k").map (fun o => mget o.metadata "user_id")
      = some (some "alice") := ⟨rfl, rfl⟩

/-- C7 counterexample: when listing the source buckets fails with an
`EndpointConnectionError`, `sync_all_buckets` does raise, but the
escaping exception is the raw connection error — not the distinguished
`S3SyncError` the claim promises (the `except` around `list_buckets`
names only `ClientError`). -/
theorem fleet_listing_endpoint_error_raw :
    sync_all_buckets c7World { listBuckets := some (.endpoint "down") } none
      = .error (.endpointConnectionError "down")
    ∧ isSyncError (.endpointConnectionError "down") = false := ⟨rfl, rfl⟩

/-- C8 counterexample: the bucket listing succeeds and two buckets are
discovered, but the first bucket's sync raises an unbound-local
`NameError` (the C10 path) which nothing in `sync_all_buckets` catches:
the fleet sync aborts with no summary at all, so the second bucket is
never processed and no per-bucket summaries are appended — refuting the
claim that every discovered bucket is processed. -/
theorem fleet_aborts_on_escaped_bucket_exception :
    sync_all_buckets c8World c8Faults none = .error (.nameError "minio_metadata") := rfl

/-- C10: there is a reachable execution of `sync_single_bucket` — the
listing returns key `k`, the subsequent source `head_object` reports the
object absent (404, e.g. the object was deleted between listing and
head), and the destination still holds a copy whose fingerprint equals
the listed one — in which the skip branch references the local
`minio_metadata` that is only bound when the source head succeeded, so
the call raises an uncaught `NameError` that escapes
`sync_single_bucket` instead of recording a failed file. -/
theorem sync_single_bucket_unbound_local_escape :
    sync_single_bucket c10World c10Faults "b" none none
      = .error (.nameError "minio_metadata") := rfl

/-! ### Amended claim C7: fleet-level listing failure -/

/-- C7 (amended): if listing the source buckets fails, `sync_all_buckets`
raises rather than returning — producing no per-bucket summaries — and
when the listing failure is a `ClientError` the raised exception is the
distinguished `S3SyncError`; an `EndpointConnectionError` propagates
raw. -/
theorem fleet_listing_failure_raises (w : World) (affix : Option String)
    (sf : StoreFault) (ff : FleetFaults) (hf : ff.listBuckets = some sf) :
    (∃ e, sync_all_buckets w ff affix = .error e)
    ∧ (∀ c m, sf = .clientError c m →
        sync_all_buckets w ff affix
          = .error (.s3SyncErrorCaused "Could not list source buckets. Aborting sync."
              (.clientError c m))) := by
  cases sf with
  | clientError c m =>
    have h1 : sync_all_buckets w ff affix
        = .error (.s3SyncErrorCaused "Could not list source buckets. Aborting sync."
            (.clientError c m)) := by
      simp [sync_all_buckets, tryCall, hf, StoreFault.toExn, isClientError]
    refine ⟨⟨_, h1⟩, ?_⟩
    intro c2 m2 heq
    injection heq with hc hm
    subst hc; subst hm
    exact h1
  | endpoint m =>
    have h1 : sync_all_buckets w ff affix = .error (.endpointConnectionError m) := by
      simp [sync_all_buckets, tryCall, hf, StoreFault.toExn, isClientError]
    refine ⟨⟨_, h1⟩, ?_⟩
    intro c2 m2 heq
    exact absurd heq (by simp)

/-- Closed witness for the amended C7 theorem. -/
theorem fleet_listing_failure_raises_witness :
    (∃ e, sync_all_buckets c7World { listBuckets := some (.clientError "500" "err") } none
            = .error e)
    ∧ (∀ c m, (StoreFault.clientError "500" "err") = .clientError c m →
        sync_all_buckets c7World { listBuckets := some (.clientError "500" "err") } none
          = .error (.s3SyncErrorCaused "Could not list source buckets. Aborting sync."
              (.clientError c m))) :=
  fleet_listing_failure_raises c7World none (.clientError "500" "err")
    { listBuckets := some (.clientError "500" "err") } rfl


/-! ### Amended claim C3: best-effort annotation writes -/

theorem annotation_faults_file_result (w : World) (lb ab key uid : String)
    (e1 e2 e3 : Option StoreFault) :
    (sync_single_file w { skipAnnotate := e1, pendingAnnotate := e2, finalAnnotate := e3 }
        lb ab key uid).map (fun p => p.1)
      = (sync_single_file w {} lb ab key uid).map (fun p => p.1) := by
  have hhandler : ∀ (e : Exn) (wx : World),
      syncFileHandler wx { skipAnnotate := e1, pendingAnnotate := e2, finalAnnotate := e3 }
          lb ab key uid e
        = syncFileHandler wx {} lb ab key uid e := fun e wx => rfl
  simp only [sync_single_file, syncFileTry]
  cases h1 : getObjectMetadata none w.minio lb key with
  | error e => simp [h1, hhandler]
  | ok smo =>
    cases smo with
    | none => simp [h1, hhandler]
    | some sm =>
      cases h2 : ensureBucketExists none none w.aws ab with
      | error e => simp [h1, h2, hhandler]
      | ok aws1 =>
        cases h3 : getObjectMetadata none aws1 ab key with
        | error e => simp [h1, h2, h3, hhandler]
        | ok dmo =>
          by_cases hd : destMatches dmo sm.etag
          · simp [h1, h2, h3, hd, Except.map]
          · obtain ⟨hbk, o, hfo, hsmv⟩ := getObjectMetadata_nofault_some_inv _ _ _ _ h1
            obtain ⟨habk, hobj, hmono⟩ := ensureBucketExists_nofault_ok_inv _ _ _ h2
            obtain ⟨mdL, hgL, hfL, hbL⟩ := bestEffortCopy_getObject e2 w.minio lb key
              (mergeSyncMeta sm.metadata "pending" nowTs ab uid) o hbk hfo
            obtain ⟨mdR, hgR, hfR, hbR⟩ := bestEffortCopy_getObject none w.minio lb key
              (mergeSyncMeta sm.metadata "pending" nowTs ab uid) o hbk hfo
            simp [h1, h2, h3, hd, tryCall, hgL, hgR, putObject_ok, habk, Except.map]

theorem syncBucketUpload_congr (w : World) (f g : KeyFaults) (bucket ab key : String)
    (bd : Option KeyBindings) (s : BucketSummary)
    (hget : f.getSource = g.getSource) (hup : f.upload = g.upload) :
    sameOutcome (syncBucketUpload w f bucket ab key bd s)
      (syncBucketUpload w g bucket ab key bd s) := by
  simp only [syncBucketUpload, hget, hup]
  cases tryCall g.getSource (w.minio.getObject bucket key) with
  | error e => exact Or.inl ⟨_, rfl, rfl⟩
  | ok resp =>
    dsimp only
    cases bd with
    | none => exact Or.inl ⟨_, rfl, rfl⟩
    | some b2 =>
      dsimp only
      cases tryCall g.upload
          (w.aws.putObject ab key resp.content
            (mergeSyncMeta resp.metadata "true" nowTs ab b2.user_id)) with
      | error e => exact Or.inl ⟨_, rfl, rfl⟩
      | ok aws2 => exact Or.inr ⟨_, _, _, rfl, rfl⟩

theorem syncBucketKey_outcome_congr (w : World) (bucket ab key etag : String) (s : BucketSummary)
    (f g : KeyFaults) (h1 : f.headSource = g.headSource) (h2 : f.pendingAnnotate = g.pendingAnnotate)
    (h3 : f.headDest = g.headDest) (h4 : f.getSource = g.getSource) (h5 : f.upload = g.upload)
    (h6 : f.handlerHead = g.handlerHead) (h7 : f.handlerAnnotate = g.handlerAnnotate) :
    keyOutcome (syncBucketKey w f bucket ab key etag s)
      = keyOutcome (syncBucketKey w g bucket ab key etag s) := by
  have hh : ∀ wx, syncBucketKeyHandler wx f bucket ab key = syncBucketKeyHandler wx g bucket ab key := by
    intro wx
    simp only [syncBucketKeyHandler, h6, h7]
  have hupl : ∀ (wx : World) (bd : Option KeyBindings) (s1 : BucketSummary),
      keyOutcome (match syncBucketUpload wx f bucket ab key bd s1 with
        | .ok sw => .ok sw
        | .error (e, s2, w2) =>
          if catchableOuter e then
            match syncBucketKeyHandler w2 f bucket ab key with
            | .ok w3 =>
              .ok ({ s2 with failed_files := s2.failed_files ++ [(key, extractErrorDetails e)] }, w3)
            | .error he => .error (he, s2, w2)
          else .error (e, s2, w2))
      = keyOutcome (match syncBucketUpload wx g bucket ab key bd s1 with
        | .ok sw => .ok sw
        | .error (e, s2, w2) =>
          if catchableOuter e then
            match syncBucketKeyHandler w2 g bucket ab key with
            | .ok w3 =>
              .ok ({ s2 with failed_files := s2.failed_files ++ [(key, extractErrorDetails e)] }, w3)
            | .error he => .error (he, s2, w2)
          else .error (e, s2, w2)) := by
    intro wx bd s1
    obtain ⟨t, hxf, hxg⟩ | ⟨s2, w1, w2, hxf, hxg⟩ :=
      syncBucketUpload_congr wx f g bucket ab key bd s1 h4 h5
    · obtain ⟨e, s3, w3⟩ := t
      rw [hxf, hxg]
      dsimp only
      rw [hh]
    · rw [hxf, hxg]
      rfl
  simp only [syncBucketKey, syncBucketKeyTry, h1, h2, h3]
  cases hA : getObjectMetadata g.headSource w.minio bucket key with
  | error e => simp [hA, hh]
  | ok smo =>
    cases smo with
    | none =>
      try simp only [hA]
      try dsimp only
      cases hC : getObjectMetadata g.headDest w.aws ab key with
      | error e => simp [hC, hh]
      | ok dmo =>
        cases dmo with
        | none =>
          try simp only [hC]
          try dsimp only
          exact hupl _ _ _
        | some d =>
          try simp only [hC]
          try dsimp only
          by_cases hd : d.etag == etag
          · simp [hd, hh, keyOutcome]
          · simp only [hd, Bool.false_eq_true, if_false]
            exact hupl _ _ _
    | some sm =>
      try simp only [hA]
      try dsimp only
      cases hB : tryCall g.pendingAnnotate
          (w.minio.copyReplaceMeta bucket key
            (mergeSyncMeta sm.metadata "pending" nowTs ab
              ((mget sm.metadata "user_id").getD "unknown"))) with
      | error e => simp [hB, hh]
      | ok m1 =>
        try simp only [hB]
        try dsimp only
        cases hC : getObjectMetadata g.headDest w.aws ab key with
        | error e => simp [hC, hh]
        | ok dmo =>
          cases dmo with
          | none =>
            try simp only [hC]
            try dsimp only
            exact hupl _ _ _
          | some d =>
            try simp only [hC]
            try dsimp only
            by_cases hd : d.etag == etag
            · simp [hd, hh, keyOutcome]
            · simp only [hd, Bool.false_eq_true, if_false]
              exact hupl _ _ _

theorem pending_fault_reports_failed (w : World) (bucket ab key etag : String) (s : BucketSummary)
    (sf : StoreFault) (sm : HeadMeta)
    (hsm : getObjectMetadata none w.minio bucket key = .ok (some sm)) :
    ∃ w2, syncBucketKey w { pendingAnnotate := some sf } bucket ab key etag s
        = .ok ({ s with failed_files := s.failed_files ++ [(key, extractErrorDetails sf.toExn)] }, w2) := by
  obtain ⟨hb, o, hfo, hsm2⟩ := getObjectMetadata_nofault_some_inv _ _ _ _ hsm
  have hcp : ∀ md2, w.minio.copyReplaceMeta bucket key md2
      = .ok (w.minio.insertObj bucket key { o with metadata := md2 }) :=
    fun md2 => copyReplaceMeta_ok w.minio bucket key md2 o hb hfo
  refine Exists.intro { w with minio := w.minio.insertObj bucket key { o with metadata := mergeSyncMeta sm.metadata "false" nowTs ab ((mget sm.metadata "user_id").getD "unknown") } } ?_
  simp [syncBucketKey, syncBucketKeyTry, syncBucketKeyHandler, hsm, tryCall, hcp,
    catchableOuter_storeFault]

/-- C3 (amended): in `sync_single_file` the three best-effort annotation
writes (pending, skip-time, final) never change the reported result; in
the per-key loop of `sync_single_bucket` the skip-time and post-copy
writes never change the attempt's outcome either, but a failure of the
`synced=pending` write is caught by the per-key handler and the key is
reported in `failed_files` (with the counters untouched) instead of its
normal outcome. -/
theorem annotation_write_failures_amended :
    (∀ (w : World) (lb ab key uid : String) (e1 e2 e3 : Option StoreFault),
      (sync_single_file w { skipAnnotate := e1, pendingAnnotate := e2, finalAnnotate := e3 }
          lb ab key uid).map (fun p => p.1)
        = (sync_single_file w {} lb ab key uid).map (fun p => p.1))
    ∧ (∀ (w : World) (bucket ab key etag : String) (s : BucketSummary) (e1 e3 : Option StoreFault),
      keyOutcome (syncBucketKey w { skipAnnotate := e1, finalAnnotate := e3 } bucket ab key etag s)
        = keyOutcome (syncBucketKey w {} bucket ab key etag s))
    ∧ (∀ (w : World) (bucket ab key etag : String) (s : BucketSummary) (sf : StoreFault) (sm : HeadMeta),
      getObjectMetadata none w.minio bucket key = .ok (some sm) →
      ∃ w2, syncBucketKey w { pendingAnnotate := some sf } bucket ab key etag s
          = .ok ({ s with failed_files := s.failed_files ++ [(key, extractErrorDetails sf.toExn)] }, w2)) :=
  ⟨annotation_faults_file_result,
   fun w bucket ab key etag s e1 e3 =>
     syncBucketKey_outcome_congr w bucket ab key etag s
       { skipAnnotate := e1, finalAnnotate := e3 } {} rfl rfl rfl rfl rfl rfl rfl,
   fun w bucket ab key etag s sf sm hsm =>
     pending_fault_reports_failed w bucket ab key etag s sf sm hsm⟩

/-- Closed witness for the amended C3 theorem. -/
theorem annotation_write_failures_amended_witness :
    ∃ w2, syncBucketKey c3World { pendingAnnotate := some (.clientError "503" "unavailable") }
        "b" "b" "k" "X"
        { bucket := "b", files_synced := 0, files_updated := 0, files_skipped := 0,
          failed_files := [], error := none }
      = .ok ({ bucket := "b", files_synced := 0, files_updated := 0, files_skipped := 0,
               failed_files := [("k", "503: unavailable")], error := none }, w2) :=
  annotation_write_failures_amended.2.2 c3World "b" "b" "k" "X"
    { bucket := "b", files_synced := 0, files_updated := 0, files_skipped := 0,
      failed_files := [], error := none }
    (.clientError "503" "unavailable") { etag := "X", metadata := [] } rfl

/-! ### Amended claim C8: fleet aggregation -/

theorem syncFleetLoop_spec (ff : FleetFaults) (affix : Option String) :
    ∀ (bs : List String) (w : World) (o o1 : FleetSummary) (w1 : World),
      syncFleetLoop ff affix bs w o = .ok (o1, w1) →
      ∃ L : List BucketSummary,
        o1.bucket_summaries = o.bucket_summaries ++ L
        ∧ L.length = bs.length
        ∧ o1.total_files_synced = o.total_files_synced + (L.map BucketSummary.files_synced).sum
        ∧ o1.total_files_updated = o.total_files_updated + (L.map BucketSummary.files_updated).sum
        ∧ o1.total_files_skipped = o.total_files_skipped + (L.map BucketSummary.files_skipped).sum
        ∧ o1.failed_buckets
            = o.failed_buckets ++ (bs.zip L).flatMap (fun p => fleetFailureEntry p.1 p.2)
        ∧ o1.total_buckets_scanned = o.total_buckets_scanned := by
  intro bs
  induction bs with
  | nil =>
    intro w o o1 w1 h
    simp only [syncFleetLoop] at h
    injection h with h
    injection h with h1 h2
    subst h1
    exact ⟨[], by simp⟩
  | cons b rest ih =>
    intro w o o1 w1 h
    simp only [syncFleetLoop] at h
    cases hb : sync_single_bucket w (ff.bucketFaults b) b (some (fleetDestName affix b)) none with
    | error e => rw [hb] at h; exact absurd h (by simp)
    | ok p =>
      obtain ⟨bsum, w2⟩ := p
      rw [hb] at h
      obtain ⟨L, hL1, hL2, hL3, hL4, hL5, hL6, hL7⟩ := ih w2 _ o1 w1 h
      refine ⟨bsum :: L, ?_, ?_, ?_, ?_, ?_, ?_, ?_⟩
      · simp only [hL1]
        simp [List.append_assoc]
      · simp [hL2]
      · simp [hL3, Nat.add_assoc]
      · simp [hL4, Nat.add_assoc]
      · simp [hL5, Nat.add_assoc]
      · simp only [hL6]
        simp [List.zip_cons_cons, List.append_assoc]
      · simpa using hL7

/-- C8 (amended): for every fleet sync whose bucket listing succeeds and
which returns a result (no per-bucket exception — such as the
unbound-local `NameError` — escapes a bucket sync), `sync_all_buckets`
appends exactly one per-bucket summary per discovered bucket, its total
counters are the sums of the per-bucket counts, and `failed_buckets`
holds exactly the entries the loop derives per bucket — one entry for a
bucket-level error or for at least one failed file, none otherwise. -/
theorem fleet_aggregation_amended (w : World) (ff : FleetFaults) (affix : Option String)
    (o : FleetSummary) (w1 : World)
    (hl : ff.listBuckets = none)
    (h : sync_all_buckets w ff affix = .ok (o, w1)) :
    o.bucket_summaries.length = w.minio.buckets.length
    ∧ o.total_files_synced = (o.bucket_summaries.map BucketSummary.files_synced).sum
    ∧ o.total_files_updated = (o.bucket_summaries.map BucketSummary.files_updated).sum
    ∧ o.total_files_skipped = (o.bucket_summaries.map BucketSummary.files_skipped).sum
    ∧ o.failed_buckets
        = (w.minio.buckets.zip o.bucket_summaries).flatMap (fun p => fleetFailureEntry p.1 p.2)
    ∧ o.total_buckets_scanned = w.minio.buckets.length
    ∧ (∀ (b : String) (bsum : BucketSummary),
        fleetFailureEntry b bsum = [] ↔ bsum.error = none ∧ bsum.failed_files = []) := by
  simp only [sync_all_buckets, hl, tryCall] at h
  obtain ⟨L, hL1, hL2, hL3, hL4, hL5, hL6, hL7⟩ :=
    syncFleetLoop_spec ff affix w.minio.buckets w _ o w1 h
  simp only [List.nil_append] at hL1
  subst hL1
  refine ⟨hL2, by simpa using hL3, by simpa using hL4, by simpa using hL5,
    by simpa using hL6, by simpa using hL7, ?_⟩
  intro b bsum
  simp only [fleetFailureEntry]
  cases he : bsum.error with
  | some err => simp
  | none =>
    cases hff : bsum.failed_files with
    | nil => simp
    | cons a t => simp

/-- Closed witness for the amended C8 theorem. -/
theorem fleet_aggregation_amended_witness :
    c8OkSummary.bucket_summaries.length = c8OkWorld.minio.buckets.length
    ∧ c8OkSummary.total_files_synced
        = (c8OkSummary.bucket_summaries.map BucketSummary.files_synced).sum
    ∧ c8OkSummary.total_files_updated
        = (c8OkSummary.bucket_summaries.map BucketSummary.files_updated).sum
    ∧ c8OkSummary.total_files_skipped
        = (c8OkSummary.bucket_summaries.map BucketSummary.files_skipped).sum
    ∧ c8OkSummary.failed_buckets
        = (c8OkWorld.minio.buckets.zip c8OkSummary.bucket_summaries).flatMap
            (fun p => fleetFailureEntry p.1 p.2)
    ∧ c8OkSummary.total_buckets_scanned = c8OkWorld.minio.buckets.length
    ∧ (∀ (b : String) (bsum : BucketSummary),
        fleetFailureEntry b bsum = [] ↔ bsum.error = none ∧ bsum.failed_files = []) :=
  fleet_aggregation_amended c8OkWorld {} none c8OkSummary c8OkFinal rfl rfl

/-! ### Claim C9: the object comparison -/

theorem comparator_dest_error_fails (w : World) (lb ab key uid c m : String) (sm : HeadMeta)
    (hc : c ≠ "404") (hsm : getObjectMetadata none w.minio lb key = .ok (some sm)) :
    ∃ w2, sync_single_file w { headDest := some (.clientError c m) } lb ab key uid
      = .ok ({ status := .failed, key := key,
               error := some (extractErrorDetails
                 (.s3SyncErrorCaused ("Could not access metadata for " ++ ab ++ "/" ++ key)
                   (.clientError c m))) }, w2) := by
  obtain ⟨hb, o, hfo, hsm2⟩ := getObjectMetadata_nofault_some_inv _ _ _ _ hsm
  obtain ⟨A, hA, hobj, habk, hmono⟩ := ensureBucketExists_nofault_spec w.aws ab
  have hcp : ∀ md2, w.minio.copyReplaceMeta lb key md2
      = .ok (w.minio.insertObj lb key { o with metadata := md2 }) :=
    fun md2 => copyReplaceMeta_ok w.minio lb key md2 o hb hfo
  have hde : getObjectMetadata (some (.clientError c m)) A ab key
      = .error (.s3SyncErrorCaused ("Could not access metadata for " ++ ab ++ "/" ++ key)
          (.clientError c m)) := by
    simp [getObjectMetadata, tryCall, StoreFault.toExn, isClientError, exnCode, hc]
  simp [sync_single_file, syncFileTry, hsm, hA, hde, catchableOuter, isSyncError,
    isClientError, isEndpointError, syncFileHandler, hcp, catchableMeta, tryCall]
  try exact ⟨_, rfl⟩

theorem comparator_dest_absent_copies (w : World) (lb ab key uid : String) (sm : HeadMeta)
    (hsm : getObjectMetadata none w.minio lb key = .ok (some sm))
    (hnone : w.aws.find ab key = none) :
    ∃ w2, sync_single_file w {} lb ab key uid
      = .ok ({ status := .synced, key := key, error := none }, w2) := by
  obtain ⟨hb, o, hfo, hsm2⟩ := getObjectMetadata_nofault_some_inv _ _ _ _ hsm
  obtain ⟨A, hA, hobj, habk, hmono⟩ := ensureBucketExists_nofault_spec w.aws ab
  have hAfind : A.find ab key = none := by
    simp only [Store.find, hobj]
    exact hnone
  have hdest : getObjectMetadata none A ab key = .ok none :=
    getObjectMetadata_nofault_none A ab key habk hAfind
  obtain ⟨md2, hg, hf2, hb2⟩ := bestEffortCopy_getObject none w.minio lb key
    (mergeSyncMeta sm.metadata "pending" nowTs ab uid) o hb hfo
  simp [sync_single_file, syncFileTry, hsm, hA, hdest, destMatches, tryCall, hg,
    putObject_ok _ _ _ _ _ habk]
  try exact ⟨_, rfl⟩

/-- C9: the comparison the syncers use judges a match true iff the
destination object exists and the quote-stripped fingerprints are equal:
`destMatches` on a present head is fingerprint equality, on an absent
head it is `false`; `_get_object_metadata` reports a present object with
its quote-stripped ETag, reports a 404 as `None` (so an absent
destination leads to a full copy — `synced` — not an error), and wraps
any non-404 head error into an `S3SyncError`, which fails the sync unit
(the result is `failed`). -/
theorem comparator_spec :
    (∀ (d : HeadMeta) (se : String), destMatches (some d) se = (d.etag == se))
    ∧ (∀ se : String, destMatches none se = false)
    ∧ (∀ (s : Store) (b k : String) (o : Obj), s.hasBucket b = true → s.find b k = some o →
        getObjectMetadata none s b k
          = .ok (some { etag := stripQuotes (etagRaw o.content), metadata := o.metadata }))
    ∧ (∀ (s : Store) (b k : String), s.hasBucket b = true → s.find b k = none →
        getObjectMetadata none s b k = .ok none)
    ∧ (∀ (s : Store) (b k c m : String), c ≠ "404" →
        getObjectMetadata (some (.clientError c m)) s b k
          = .error (.s3SyncErrorCaused ("Could not access metadata for " ++ b ++ "/" ++ k)
              (.clientError c m)))
    ∧ (∀ (w : World) (lb ab key uid c m : String) (sm : HeadMeta), c ≠ "404" →
        getObjectMetadata none w.minio lb key = .ok (some sm) →
        ∃ w2, sync_single_file w { headDest := some (.clientError c m) } lb ab key uid
          = .ok ({ status := .failed, key := key,
                   error := some (extractErrorDetails
                     (.s3SyncErrorCaused ("Could not access metadata for " ++ ab ++ "/" ++ key)
                       (.clientError c m))) }, w2))
    ∧ (∀ (w : World) (lb ab key uid : String) (sm : HeadMeta),
        getObjectMetadata none w.minio lb key = .ok (some sm) →
        w.aws.find ab key = none →
        ∃ w2, sync_single_file w {} lb ab key uid
          = .ok ({ status := .synced, key := key, error := none }, w2)) :=
  ⟨fun d se => rfl,
   fun se => rfl,
   getObjectMetadata_nofault_some,
   getObjectMetadata_nofault_none,
   fun s b k c m hc => by
     simp [getObjectMetadata, tryCall, StoreFault.toExn, isClientError, exnCode, hc],
   fun w lb ab key uid c m sm hc hsm => comparator_dest_error_fails w lb ab key uid c m sm hc hsm,
   fun w lb ab key uid sm hsm hnone => comparator_dest_absent_copies w lb ab key uid sm hsm hnone⟩

/-- Closed witness for the C9 theorem. -/
theorem comparator_spec_witness :
    getObjectMetadata none c6World.minio "b" "k"
        = .ok (some { etag := stripQuotes (etagRaw "X"),
                      metadata := [("user_id", "alice"), ("bucket", "docs")] })
    ∧ getObjectMetadata none c6World.aws "b" "k" = .ok none
    ∧ getObjectMetadata (some (.clientError "403" "denied")) c6World.aws "b" "k"
        = .error (.s3SyncErrorCaused "Could not access metadata for b/k"
            (.clientError "403" "denied"))
    ∧ (∃ w2, sync_single_file c6World { headDest := some (.clientError "403" "denied") }
          "b" "b" "k" "u"
        = .ok ({ status := .failed, key := "k",
                 error := some (extractErrorDetails
                   (.s3SyncErrorCaused "Could not access metadata for b/k"
                     (.clientError "403" "denied"))) }, w2))
    ∧ (∃ w2, sync_single_file c6World {} "b" "b" "k" "u"
        = .ok ({ status := .synced, key := "k", error := none }, w2)) :=
  ⟨comparator_spec.2.2.1 c6World.minio "b" "k"
      { content := "X", metadata := [("user_id", "alice"), ("bucket", "docs")] } rfl rfl,
   comparator_spec.2.2.2.1 c6World.aws "b" "k" rfl rfl,
   comparator_spec.2.2.2.2.1 c6World.aws "b" "k" "403" "denied" (by decide),
   comparator_spec.2.2.2.2.2.1 c6World "b" "b" "k" "u" "403" "denied"
     { etag := "X", metadata := [("user_id", "alice"), ("bucket", "docs")] } (by decide) rfl,
   comparator_spec.2.2.2.2.2.2 c6World "b" "b" "k" "u"
     { etag := "X", metadata := [("user_id", "alice"), ("bucket", "docs")] } rfl rfl⟩

/-! ### Inversion of a fault-free sync_single_file run -/

theorem sync_single_file_nofault_ok_inv (w : World) (lb ab key uid : String)
    (r : SyncResult) (w1 : World)
    (h : sync_single_file w {} lb ab key uid = .ok (r, w1)) :
    (r.status = .failed ∧ w1 = w) ∨
    (∃ o o1 : Obj,
      w.minio.hasBucket lb = true
      ∧ w.minio.find lb key = some o
      ∧ r.key = key ∧ r.error = none
      ∧ w1.minio.hasBucket lb = true
      ∧ w1.minio.find lb key = some o1
      ∧ o1.content = o.content
      ∧ (∀ mkey, "synced" ≠ mkey → "last_synced" ≠ mkey → "aws_bucket" ≠ mkey →
            "user_id" ≠ mkey → mget o1.metadata mkey = mget o.metadata mkey)
      ∧ w1.aws.hasBucket ab = true
      ∧ ((r.status = .skipped ∧ w1.aws.objects = w.aws.objects)
         ∨ ((r.status = .synced ∨ r.status = .updated)
            ∧ ∃ md, w1.aws.find ab key = some { content := o.content, metadata := md }
               ∧ (∀ mkey, "synced" ≠ mkey → "last_synced" ≠ mkey → "aws_bucket" ≠ mkey →
                    "user_id" ≠ mkey → mget md mkey = mget o.metadata mkey)))) := by
  cases hsm : getObjectMetadata none w.minio lb key with
  | error e =>
    exfalso
    obtain ⟨hb0, he⟩ := getObjectMetadata_nofault_error_inv _ _ _ _ hsm
    subst he
    simp [sync_single_file, syncFileTry, hsm, catchableOuter, isSyncError, isClientError,
      isEndpointError, syncFileHandler, catchableMeta] at h
  | ok smo =>
    cases smo with
    | none =>
      left
      have hrun : sync_single_file w {} lb ab key uid
          = .ok ({ status := .failed, key := key,
                   error := some (extractErrorDetails
                     (.s3SyncError ("Source file " ++ key ++ " not found in bucket " ++ lb ++ "."))) },
                 w) := by
        simp [sync_single_file, syncFileTry, hsm, catchableOuter, isSyncError, syncFileHandler]
      rw [hrun] at h
      injection h with h
      injection h with h1 h2
      constructor
      · rw [← h1]
      · rw [← h2]
    | some sm =>
      right
      obtain ⟨hb, o, hfo, hsm2⟩ := getObjectMetadata_nofault_some_inv _ _ _ _ hsm
      subst hsm2
      obtain ⟨A, hA, hobj, habk, hmono⟩ := ensureBucketExists_nofault_spec w.aws ab
      have hAfind : ∀ k2, A.find ab k2 = w.aws.find ab k2 := by
        intro k2
        simp [Store.find, hobj]
      have hm1 := bestEffortCopy_nofault_ok w.minio lb key
        (mergeSyncMeta o.metadata "pending" nowTs ab uid) o hb hfo
      cases hdf : w.aws.find ab key with
      | none =>
        have hdest : getObjectMetadata none A ab key = .ok none :=
          getObjectMetadata_nofault_none _ _ _ habk ((hAfind key).trans hdf)
        have hfind1 : (w.minio.insertObj lb key
            { o with metadata := mergeSyncMeta o.metadata "pending" nowTs ab uid }).find lb key
            = some { o with metadata := mergeSyncMeta o.metadata "pending" nowTs ab uid } := by
          rw [find_insertObj]
          simp
        have hget : (w.minio.insertObj lb key
            { o with metadata := mergeSyncMeta o.metadata "pending" nowTs ab uid }).getObject lb key
            = .ok { content := o.content,
                    metadata := mergeSyncMeta o.metadata "pending" nowTs ab uid } :=
          getObject_ok (w.minio.insertObj lb key
            { o with metadata := mergeSyncMeta o.metadata "pending" nowTs ab uid }) lb key
            { o with metadata := mergeSyncMeta o.metadata "pending" nowTs ab uid } hb hfind1
        have hm3 := bestEffortCopy_nofault_ok
          (w.minio.insertObj lb key
            { o with metadata := mergeSyncMeta o.metadata "pending" nowTs ab uid }) lb key
          (mergeSyncMeta (mergeSyncMeta o.metadata "pending" nowTs ab uid) "true" nowTs ab uid)
          { o with metadata := mergeSyncMeta o.metadata "pending" nowTs ab uid } hb hfind1
        simp only [sync_single_file, syncFileTry, hsm, hA, hdest, destMatches, tryCall, hm1,
          hget, hm3, putObject_ok A ab key o.content _ habk, mergeSyncMeta_not_empty,
          Bool.false_eq_true, if_false, Option.isSome_none] at h
        injection h with h
        injection h with h1 h2
        refine ⟨o, { content := o.content, metadata := mergeSyncMeta (mergeSyncMeta o.metadata "pending" nowTs ab uid) "true" nowTs ab uid }, hb, hfo, by rw [← h1], by rw [← h1], ?_, ?_, rfl, ?_, ?_, ?_⟩
        · rw [← h2]
          exact hb
        · rw [← h2]
          rw [find_insertObj]
          simp
        · intro mkey k1 k2 k3 k4
          rw [mget_mergeSyncMeta_other _ _ _ _ _ _ k1 k2 k3 k4,
            mget_mergeSyncMeta_other _ _ _ _ _ _ k1 k2 k3 k4]
        · rw [← h2]
          exact habk
        · right
          constructor
          · left
            rw [← h1]
          · refine ⟨mergeSyncMeta (mergeSyncMeta o.metadata "pending" nowTs ab uid) "true" nowTs ab uid, ?_, ?_⟩
            · rw [← h2]
              rw [find_insertObj]
              simp
            · intro mkey k1 k2 k3 k4
              rw [mget_mergeSyncMeta_other _ _ _ _ _ _ k1 k2 k3 k4,
                mget_mergeSyncMeta_other _ _ _ _ _ _ k1 k2 k3 k4]
      | some d0 =>
        have hdest : getObjectMetadata none A ab key
            = .ok (some { etag := stripQuotes (etagRaw d0.content), metadata := d0.metadata }) :=
          getObjectMetadata_nofault_some _ _ _ _ habk ((hAfind key).trans hdf)
        by_cases hq : stripQuotes (etagRaw d0.content) = stripQuotes (etagRaw o.content)
        · -- skip branch
          have hrun : sync_single_file w {} lb ab key uid
              = .ok ({ status := .skipped, key := key, error := none },
                  { minio := w.minio.insertObj lb key
                      { o with metadata := mergeSyncMeta o.metadata "true" nowTs ab uid },
                    aws := A }) := by
            simp [sync_single_file, syncFileTry, hsm, hA, hdest, destMatches, hq,
              bestEffortCopy_nofault_ok w.minio lb key
                (mergeSyncMeta o.metadata "true" nowTs ab uid) o hb hfo]
          rw [hrun] at h
          injection h with h
          injection h with h1 h2
          refine ⟨o, { o with metadata := mergeSyncMeta o.metadata "true" nowTs ab uid }, hb, hfo, by rw [← h1], by rw [← h1], ?_, ?_, rfl, ?_, ?_, ?_⟩
          · rw [← h2]
            exact hb
          · rw [← h2]
            rw [find_insertObj]
            simp
          · intro mkey k1 k2 k3 k4
            exact mget_mergeSyncMeta_other _ _ _ _ _ _ k1 k2 k3 k4
          · rw [← h2]
            exact habk
          · left
            constructor
            · rw [← h1]
            · rw [← h2]
              exact hobj
        · -- updated branch
          have hfind1 : (w.minio.insertObj lb key
              { o with metadata := mergeSyncMeta o.metadata "pending" nowTs ab uid }).find lb key
              = some { o with metadata := mergeSyncMeta o.metadata "pending" nowTs ab uid } := by
            rw [find_insertObj]
            simp
          have hget : (w.minio.insertObj lb key
              { o with metadata := mergeSyncMeta o.metadata "pending" nowTs ab uid }).getObject lb key
              = .ok { content := o.content,
                      metadata := mergeSyncMeta o.metadata "pending" nowTs ab uid } :=
            getObject_ok (w.minio.insertObj lb key
              { o with metadata := mergeSyncMeta o.metadata "pending" nowTs ab uid }) lb key
              { o with metadata := mergeSyncMeta o.metadata "pending" nowTs ab uid } hb hfind1
          have hm3 := bestEffortCopy_nofault_ok
            (w.minio.insertObj lb key
              { o with metadata := mergeSyncMeta o.metadata "pending" nowTs ab uid }) lb key
            (mergeSyncMeta (mergeSyncMeta o.metadata "pending" nowTs ab uid) "true" nowTs ab uid)
            { o with metadata := mergeSyncMeta o.metadata "pending" nowTs ab uid } hb hfind1
          have hne : (stripQuotes (etagRaw d0.content) == stripQuotes (etagRaw o.content)) = false := by
            simp [hq]
          simp only [sync_single_file, syncFileTry, hsm, hA, hdest, destMatches, hne, tryCall, hm1,
            hget, hm3, putObject_ok A ab key o.content _ habk, mergeSyncMeta_not_empty,
            Bool.false_eq_true, if_false, Option.isSome_some, if_true] at h
          injection h with h
          injection h with h1 h2
          refine ⟨o, { content := o.content, metadata := mergeSyncMeta (mergeSyncMeta o.metadata "pending" nowTs ab uid) "true" nowTs ab uid }, hb, hfo, by rw [← h1], by rw [← h1], ?_, ?_, rfl, ?_, ?_, ?_⟩
          · rw [← h2]
            exact hb
          · rw [← h2]
            rw [find_insertObj]
            simp
          · intro mkey k1 k2 k3 k4
            rw [mget_mergeSyncMeta_other _ _ _ _ _ _ k1 k2 k3 k4,
              mget_mergeSyncMeta_other _ _ _ _ _ _ k1 k2 k3 k4]
          · rw [← h2]
            exact habk
          · right
            constructor
            · right
              rw [← h1]
            · refine ⟨mergeSyncMeta (mergeSyncMeta o.metadata "pending" nowTs ab uid) "true" nowTs ab uid, ?_, ?_⟩
              · rw [← h2]
                rw [find_insertObj]
                simp
              · intro mkey k1 k2 k3 k4
                rw [mget_mergeSyncMeta_other _ _ _ _ _ _ k1 k2 k3 k4,
                  mget_mergeSyncMeta_other _ _ _ _ _ _ k1 k2 k3 k4]

/-! ### Amended claim C6: metadata passthrough -/

theorem getObjectMetadata_nofault_okNone_inv (s : Store) (b k : String)
    (h : getObjectMetadata none s b k = .ok none) :
    s.hasBucket b = true ∧ s.find b k = none := by
  by_cases hb : s.hasBucket b
  · refine ⟨hb, ?_⟩
    cases hf : s.find b k with
    | some o => rw [getObjectMetadata_nofault_some s b k o hb hf] at h; simp at h
    | none => rfl
  · exfalso
    have hb2 : s.hasBucket b = false := by simpa using hb
    simp [getObjectMetadata, tryCall, Store.headObject, hb2, isClientError, exnCode] at h

theorem metadata_passthrough_file (w : World) (lb ab key uid mkey : String)
    (hm1 : "synced" ≠ mkey) (hm2 : "last_synced" ≠ mkey)
    (hm3 : "aws_bucket" ≠ mkey) (hm4 : "user_id" ≠ mkey)
    (r : SyncResult) (w1 : World)
    (h : sync_single_file w {} lb ab key uid = .ok (r, w1)) :
    ((w1.minio.find lb key).map (fun o => mget o.metadata mkey))
        = ((w.minio.find lb key).map (fun o => mget o.metadata mkey))
    ∧ ((r.status = .synced ∨ r.status = .updated) →
        ((w1.aws.find ab key).map (fun o => mget o.metadata mkey))
          = ((w.minio.find lb key).map (fun o => mget o.metadata mkey))) := by
  obtain ⟨hst, hw⟩ | ⟨o, o1, hb, hfo, hk, he, hb1, hf1, hc1, hmg, habk, hrest⟩ :=
    sync_single_file_nofault_ok_inv w lb ab key uid r w1 h
  · subst hw
    refine ⟨rfl, ?_⟩
    intro hs
    cases hs with
    | inl h2 => rw [hst] at h2; exact SyncStatus.noConfusion h2
    | inr h2 => rw [hst] at h2; exact SyncStatus.noConfusion h2
  · refine ⟨?_, ?_⟩
    · rw [hf1, hfo]
      simp only [Option.map]
      exact congrArg some (hmg mkey hm1 hm2 hm3 hm4)
    · intro hs
      obtain ⟨hsk, hskobj⟩ | ⟨hsu, md, hfa, hmd⟩ := hrest
      · cases hs with
        | inl h2 => rw [hsk] at h2; exact SyncStatus.noConfusion h2
        | inr h2 => rw [hsk] at h2; exact SyncStatus.noConfusion h2
      · rw [hfa, hfo]
        simp only [Option.map]
        exact congrArg some (hmd mkey hm1 hm2 hm3 hm4)

theorem metadata_passthrough_key (w : World) (bucket ab key etag mkey : String)
    (hm1 : "synced" ≠ mkey) (hm2 : "last_synced" ≠ mkey)
    (hm3 : "aws_bucket" ≠ mkey) (hm4 : "user_id" ≠ mkey)
    (s s1 : BucketSummary) (w1 : World)
    (h : syncBucketKey w {} bucket ab key etag s = .ok (s1, w1)) :
    ((w1.minio.find bucket key).map (fun o => mget o.metadata mkey))
      = ((w.minio.find bucket key).map (fun o => mget o.metadata mkey)) := by
  cases hsm : getObjectMetadata none w.minio bucket key with
  | error e =>
    exfalso
    obtain ⟨hb0, he⟩ := getObjectMetadata_nofault_error_inv _ _ _ _ hsm
    subst he
    simp [syncBucketKey, syncBucketKeyTry, syncBucketKeyHandler, hsm, catchableOuter,
      isSyncError, isClientError, isEndpointError, catchableMeta] at h
  | ok smo =>
    cases smo with
    | none =>
      obtain ⟨hbm, hfm⟩ := getObjectMetadata_nofault_okNone_inv _ _ _ hsm
      cases hdm : getObjectMetadata none w.aws ab key with
      | error e2 =>
        obtain ⟨hb0, he2⟩ := getObjectMetadata_nofault_error_inv _ _ _ _ hdm
        subst he2
        have hrun : syncBucketKey w {} bucket ab key etag s
            = .ok ({ s with failed_files := s.failed_files
                ++ [(key, extractErrorDetails
                      (.s3SyncErrorCaused ("Could not access metadata for " ++ ab ++ "/" ++ key)
                        (.clientError "NoSuchBucket" "The specified bucket does not exist")))] }, w) := by
          simp [syncBucketKey, syncBucketKeyTry, syncBucketKeyHandler, hsm, hdm,
            catchableOuter, isSyncError, tryCall]
        rw [hrun] at h
        injection h with h
        injection h with h1 h2
        rw [← h2]
      | ok dmo =>
        cases dmo with
        | none =>
          have hget : w.minio.getObject bucket key
              = .error (.clientError "NoSuchKey" "The specified key does not exist") := by
            simp [Store.getObject, hbm, hfm]
          have hrun : syncBucketKey w {} bucket ab key etag s
              = .ok ({ { s with files_synced := s.files_synced + 1 } with
                  failed_files := s.failed_files
                    ++ [(key, extractErrorDetails
                          (.clientError "NoSuchKey" "The specified key does not exist"))] }, w) := by
            simp [syncBucketKey, syncBucketKeyTry, syncBucketUpload, syncBucketKeyHandler,
              hsm, hdm, hget, catchableOuter, isClientError, tryCall]
          rw [hrun] at h
          injection h with h
          injection h with h1 h2
          rw [← h2]
        | some d =>
          by_cases hd : d.etag == etag
          · exfalso
            simp [syncBucketKey, syncBucketKeyTry, hsm, hdm, hd, catchableOuter,
              isClientError, isSyncError, isEndpointError, tryCall] at h
          · have hget : w.minio.getObject bucket key
                = .error (.clientError "NoSuchKey" "The specified key does not exist") := by
              simp [Store.getObject, hbm, hfm]
            have hrun : syncBucketKey w {} bucket ab key etag s
                = .ok ({ { s with files_updated := s.files_updated + 1 } with
                    failed_files := s.failed_files
                      ++ [(key, extractErrorDetails
                            (.clientError "NoSuchKey" "The specified key does not exist"))] }, w) := by
              simp [syncBucketKey, syncBucketKeyTry, syncBucketUpload, syncBucketKeyHandler,
                hsm, hdm, hd, hget, catchableOuter, isClientError, tryCall]
            rw [hrun] at h
            injection h with h
            injection h with h1 h2
            rw [← h2]
    | some sm =>
      obtain ⟨hb, o, hfo, hsm2⟩ := getObjectMetadata_nofault_some_inv _ _ _ _ hsm
      subst hsm2
      have hcp : ∀ md2, w.minio.copyReplaceMeta bucket key md2
          = .ok (w.minio.insertObj bucket key { o with metadata := md2 }) :=
        fun md2 => copyReplaceMeta_ok w.minio bucket key md2 o hb hfo
      have hfind1 : ∀ md2, (w.minio.insertObj bucket key { o with metadata := md2 }).find bucket key
          = some { o with metadata := md2 } := by
        intro md2
        rw [find_insertObj]
        simp
      have hcp2 : ∀ md2 md3, (w.minio.insertObj bucket key { o with metadata := md2 }).copyReplaceMeta bucket key md3
          = .ok ((w.minio.insertObj bucket key { o with metadata := md2 }).insertObj bucket key
              { o with metadata := md3 }) :=
        fun md2 md3 => copyReplaceMeta_ok (w.minio.insertObj bucket key { o with metadata := md2 })
          bucket key md3 { o with metadata := md2 } hb (hfind1 md2)
      have hhead1 : ∀ md2, getObjectMetadata none
            (w.minio.insertObj bucket key { o with metadata := md2 }) bucket key
          = .ok (some { etag := stripQuotes (etagRaw o.content), metadata := md2 }) :=
        fun md2 => getObjectMetadata_nofault_some
          (w.minio.insertObj bucket key { o with metadata := md2 }) bucket key
          { o with metadata := md2 } hb (hfind1 md2)
      have hget1 : ∀ md2, (w.minio.insertObj bucket key { o with metadata := md2 }).getObject bucket key
          = .ok { content := o.content, metadata := md2 } :=
        fun md2 => getObject_ok (w.minio.insertObj bucket key { o with metadata := md2 })
          bucket key { o with metadata := md2 } hb (hfind1 md2)
      have hbec : ∀ md2 md3, bestEffortCopy none
            (w.minio.insertObj bucket key { o with metadata := md2 }) bucket key md3
          = (w.minio.insertObj bucket key { o with metadata := md2 }).insertObj bucket key
              { o with metadata := md3 } :=
        fun md2 md3 => bestEffortCopy_nofault_ok
          (w.minio.insertObj bucket key { o with metadata := md2 }) bucket key md3
          { o with metadata := md2 } hb (hfind1 md2)
      have hconc2 : ∀ md2 md3,
          ((((w.minio.insertObj bucket key { o with metadata := md2 }).insertObj bucket key
              { o with metadata := md3 }).find bucket key).map (fun o2 => mget o2.metadata mkey))
            = some (mget md3 mkey) := by
        intro md2 md3
        rw [find_insertObj]
        simp
      cases hdm : getObjectMetadata none w.aws ab key with
      | error e2 =>
        obtain ⟨hb0, he2⟩ := getObjectMetadata_nofault_error_inv _ _ _ _ hdm
        subst he2
        simp only [syncBucketKey, syncBucketKeyTry, syncBucketKeyHandler, hsm, hdm, tryCall,
          hcp, hcp2, hhead1, catchableOuter, isSyncError, isClientError, isEndpointError,
          Bool.or_true, Bool.true_or, if_true] at h
        injection h with h
        injection h with h1 h2
        rw [← h2]
        rw [hconc2, hfo]
        simp only [Option.map]
        refine congrArg some ?_
        rw [mget_mergeSyncMeta_other _ _ _ _ _ _ hm1 hm2 hm3 hm4,
          mget_mergeSyncMeta_other _ _ _ _ _ _ hm1 hm2 hm3 hm4]
      | ok dmo =>
        cases dmo with
        | none =>
          by_cases hak : w.aws.hasBucket ab
          · have hput : ∀ md3, w.aws.putObject ab key o.content md3
                = .ok (w.aws.insertObj ab key { content := o.content, metadata := md3 }) :=
              fun md3 => putObject_ok w.aws ab key o.content md3 hak
            simp only [syncBucketKey, syncBucketKeyTry, syncBucketUpload, hsm, hdm, tryCall,
              hcp, hget1, hput, hbec] at h
            injection h with h
            injection h with h1 h2
            rw [← h2]
            rw [hconc2, hfo]
            simp only [Option.map]
            refine congrArg some ?_
            rw [mget_mergeSyncMeta_other _ _ _ _ _ _ hm1 hm2 hm3 hm4,
              mget_mergeSyncMeta_other _ _ _ _ _ _ hm1 hm2 hm3 hm4]
          · have hak2 : w.aws.hasBucket ab = false := by simpa using hak
            have hput : ∀ md3, w.aws.putObject ab key o.content md3
                = .error (.clientError "NoSuchBucket" "The specified bucket does not exist") := by
              intro md3
              simp [Store.putObject, hak2]
            simp only [syncBucketKey, syncBucketKeyTry, syncBucketUpload, syncBucketKeyHandler,
              hsm, hdm, tryCall, hcp, hget1, hput, hcp2, hhead1, catchableOuter, isClientError,
              Bool.true_or, if_true] at h
            injection h with h
            injection h with h1 h2
            rw [← h2]
            rw [hconc2, hfo]
            simp only [Option.map]
            refine congrArg some ?_
            rw [mget_mergeSyncMeta_other _ _ _ _ _ _ hm1 hm2 hm3 hm4,
              mget_mergeSyncMeta_other _ _ _ _ _ _ hm1 hm2 hm3 hm4]
        | some d =>
          by_cases hd : d.etag == etag
          · simp only [syncBucketKey, syncBucketKeyTry, hsm, hdm, tryCall, hcp, hd, if_true,
              hbec] at h
            injection h with h
            injection h with h1 h2
            rw [← h2]
            rw [hconc2, hfo]
            simp only [Option.map]
            refine congrArg some ?_
            rw [mget_mset]
            rw [if_neg hm1]
            rw [mget_mergeSyncMeta_other _ _ _ _ _ _ hm1 hm2 hm3 hm4]
          · by_cases hak : w.aws.hasBucket ab
            · have hput : ∀ md3, w.aws.putObject ab key o.content md3
                  = .ok (w.aws.insertObj ab key { content := o.content, metadata := md3 }) :=
                fun md3 => putObject_ok w.aws ab key o.content md3 hak
              simp only [syncBucketKey, syncBucketKeyTry, syncBucketUpload, hsm, hdm, hd,
                Bool.false_eq_true, if_false, tryCall, hcp, hget1, hput, hbec] at h
              injection h with h
              injection h with h1 h2
              rw [← h2]
              rw [hconc2, hfo]
              simp only [Option.map]
              refine congrArg some ?_
              rw [mget_mergeSyncMeta_other _ _ _ _ _ _ hm1 hm2 hm3 hm4,
                mget_mergeSyncMeta_other _ _ _ _ _ _ hm1 hm2 hm3 hm4]
            · have hak2 : w.aws.hasBucket ab = false := by simpa using hak
              have hput : ∀ md3, w.aws.putObject ab key o.content md3
                  = .error (.clientError "NoSuchBucket" "The specified bucket does not exist") := by
                intro md3
                simp [Store.putObject, hak2]
              simp only [syncBucketKey, syncBucketKeyTry, syncBucketUpload, syncBucketKeyHandler,
                hsm, hdm, hd, Bool.false_eq_true, if_false, tryCall, hcp, hget1, hput, hcp2,
                hhead1, catchableOuter, isClientError, Bool.true_or, if_true] at h
              injection h with h
              injection h with h1 h2
              rw [← h2]
              rw [hconc2, hfo]
              simp only [Option.map]
              refine congrArg some ?_
              rw [mget_mergeSyncMeta_other _ _ _ _ _ _ hm1 hm2 hm3 hm4,
                mget_mergeSyncMeta_other _ _ _ _ _ _ hm1 hm2 hm3 hm4]

/-- C6 (amended): every pre-existing application metadata key other than
the sync fields (`synced`, `last_synced`, `aws_bucket`) and `user_id` is
still present with its original value after any outcome — on the source
object after every metadata-replacing write, and (for a completed copy)
on the destination copy's metadata; `user_id` is excluded because every
merged map overwrites it (in `sync_single_file` with the caller-supplied
argument). -/
theorem metadata_passthrough_amended :
    (∀ (w : World) (lb ab key uid mkey : String),
      "synced" ≠ mkey → "last_synced" ≠ mkey → "aws_bucket" ≠ mkey → "user_id" ≠ mkey →
      ∀ (r : SyncResult) (w1 : World), sync_single_file w {} lb ab key uid = .ok (r, w1) →
      ((w1.minio.find lb key).map (fun o => mget o.metadata mkey))
          = ((w.minio.find lb key).map (fun o => mget o.metadata mkey))
      ∧ ((r.status = .synced ∨ r.status = .updated) →
          ((w1.aws.find ab key).map (fun o => mget o.metadata mkey))
            = ((w.minio.find lb key).map (fun o => mget o.metadata mkey))))
    ∧ (∀ (w : World) (bucket ab key etag mkey : String),
      "synced" ≠ mkey → "last_synced" ≠ mkey → "aws_bucket" ≠ mkey → "user_id" ≠ mkey →
      ∀ (s s1 : BucketSummary) (w1 : World),
        syncBucketKey w {} bucket ab key etag s = .ok (s1, w1) →
        ((w1.minio.find bucket key).map (fun o => mget o.metadata mkey))
          = ((w.minio.find bucket key).map (fun o => mget o.metadata mkey))) :=
  ⟨fun w lb ab key uid mkey h1 h2 h3 h4 r w1 h =>
     metadata_passthrough_file w lb ab key uid mkey h1 h2 h3 h4 r w1 h,
   fun w bucket ab key etag mkey h1 h2 h3 h4 s s1 w1 h =>
     metadata_passthrough_key w bucket ab key etag mkey h1 h2 h3 h4 s s1 w1 h⟩

/-- Closed witness for the amended C6 theorem. -/
theorem metadata_passthrough_amended_witness :
    ((c6Final.minio.find "b" "k").map (fun o => mget o.metadata "bucket"))
        = ((c6World.minio.find "b" "k").map (fun o => mget o.metadata "bucket"))
    ∧ ((SyncResult.status { status := .synced, key := "k", error := none } = .synced
          ∨ SyncResult.status { status := .synced, key := "k", error := none } = .updated) →
        ((c6Final.aws.find "b" "k").map (fun o => mget o.metadata "bucket"))
          = ((c6World.minio.find "b" "k").map (fun o => mget o.metadata "bucket"))) :=
  metadata_passthrough_amended.1 c6World "b" "b" "k" "bob" "bucket"
    (by decide) (by decide) (by decide) (by decide)
    { status := .synced, key := "k", error := none } c6Final rfl

/-! ### Claim C5: idempotence of an unchanged re-sync -/

/-- C5: if a fault-free `sync_single_file` call succeeded with `synced`
or `updated` and neither store changes in between, the immediately
following call on the same key returns `skipped` and performs no write
to the destination store: the destination state after the second call is
exactly the state the first call left. -/
theorem sync_second_call_skips (w : World) (lb ab key uid : String)
    (r : SyncResult) (w1 : World)
    (h : sync_single_file w {} lb ab key uid = .ok (r, w1))
    (hs : r.status = .synced ∨ r.status = .updated) :
    ∃ w2, sync_single_file w1 {} lb ab key uid
        = .ok ({ status := .skipped, key := key, error := none }, w2) ∧ w2.aws = w1.aws := by
  obtain ⟨hst, hw⟩ | ⟨o, o1, hb, hfo, hk, he, hb1, hf1, hc1, hmg, habk, hrest⟩ :=
    sync_single_file_nofault_ok_inv w lb ab key uid r w1 h
  · cases hs with
    | inl h2 => rw [hst] at h2; exact SyncStatus.noConfusion h2
    | inr h2 => rw [hst] at h2; exact SyncStatus.noConfusion h2
  · obtain ⟨hsk, hskobj⟩ | ⟨hsu, md, hfa, hmd⟩ := hrest
    · cases hs with
      | inl h2 => rw [hsk] at h2; exact SyncStatus.noConfusion h2
      | inr h2 => rw [hsk] at h2; exact SyncStatus.noConfusion h2
    · have hsm2 : getObjectMetadata none w1.minio lb key
          = .ok (some { etag := stripQuotes (etagRaw o1.content), metadata := o1.metadata }) :=
        getObjectMetadata_nofault_some w1.minio lb key o1 hb1 hf1
      have hens : ensureBucketExists none none w1.aws ab = .ok w1.aws := by
        rw [ensureBucketExists_nofault, if_pos habk]
      have hdm : getObjectMetadata none w1.aws ab key
          = .ok (some { etag := stripQuotes (etagRaw o.content), metadata := md }) :=
        getObjectMetadata_nofault_some w1.aws ab key
          { content := o.content, metadata := md } habk hfa
      have hrun : sync_single_file w1 {} lb ab key uid
          = .ok ({ status := .skipped, key := key, error := none },
              { minio := bestEffortCopy none w1.minio lb key
                  (mergeSyncMeta o1.metadata "true" nowTs ab uid), aws := w1.aws }) := by
        simp [sync_single_file, syncFileTry, hsm2, hens, hdm, destMatches, hc1]
      exact ⟨_, hrun, rfl⟩

/-- Closed witness for the C5 theorem. -/
theorem sync_second_call_skips_witness :
    ∃ w2, sync_single_file c5Mid {} "b" "d" "k" "u"
        = .ok ({ status := .skipped, key := "k", error := none }, w2) ∧ w2.aws = c5Mid.aws :=
  sync_second_call_skips c5World "b" "d" "k" "u"
    { status := .synced, key := "k", error := none } c5Mid rfl (Or.inl rfl)

end CloudflowSync
